import Mathlib

set_option maxRecDepth 4000

/-!
Verification of the ISODateTime formatting utility.

The embedding models `src/ISODateTime.cpp` (POSIX branch):

* An instant (`std::chrono::system_clock::time_point`) is modelled at millisecond
  granularity as an `Int` counting milliseconds since the Unix epoch; the code
  observes an instant only through `to_time_t` (truncating division by 1000,
  `Int.tdiv`) and `duration_cast<milliseconds>(...) % 1000` (truncating
  remainder, `Int.tmod`).
* The ambient local-timezone setting is modelled as a function `TZ` from epoch
  seconds to the UTC offset (in seconds) in effect at that instant, the
  semantics of tzdata local time: the local calendar breakdown of `t` is
  the UTC breakdown of `t + offset t`.
* `gmtime_r` is modelled by the proleptic-Gregorian civil-from-days
  computation on epoch seconds (floor division into days and seconds-of-day,
  then the standard era/year-of-era/day-of-year decomposition used by C
  libraries), producing a `struct tm` (`Tm` below, with `tm_year` relative to
  1900 and `tm_mon` zero-based).  glibc's `gmtime_r`/`localtime_r` fail
  (returning NULL with errno EOVERFLOW) exactly when the computed year minus
  1900 does not fit in a 32-bit int; in that case the hour, minute, second and
  the int-truncated year have already been stored into the caller's tm while
  month and day-of-month keep the value-initialized zero of the wrapper's
  `std::tm tm{}`.  The wrappers `to_local_tm`/`to_utc_tm` in the source ignore
  the failure and return the tm buffer regardless, which is modelled here by
  `to_utc_tm` returning that partially-written tm.
* `std::put_time` with `"%F"`/`"%FT%H:%M:%S"` delegates to `strftime`:
  `%Y` prints the year `1900 + tm_year` as a plain decimal number with no
  zero-padding (verified glibc behaviour, e.g. year 50 prints `50`), while
  `%m`, `%d`, `%H`, `%M`, `%S` zero-pad to width 2.  The stream insertion
  `<< std::setw(3) << std::setfill('0')` prints the decimal representation
  right-justified, padded on the left with `'0'` to a minimum width of 3
  (so `-1` prints `0-1`).
-/

namespace ISODateTime

/-- Year-of-era in [0, 399] from day-of-era, the standard Gregorian
civil-from-days computation underlying POSIX `gmtime`. -/
def yoeOf (doe : Nat) : Nat := (doe - doe / 1460 + doe / 36524 - doe / 146096) / 365

/-- Day-of-year (March-based, in [0, 365]) from day-of-era. -/
def doyOf (doe : Nat) : Nat := doe - (365 * yoeOf doe + yoeOf doe / 4 - yoeOf doe / 100)

/-- March-based month index in [0, 11] from day-of-year. -/
def mpOf (doy : Nat) : Nat := (5 * doy + 2) / 153

/-- Day of month in [1, 31] from day-of-year. -/
def mdayOfDoy (doy : Nat) : Nat := doy - (153 * mpOf doy + 2) / 5 + 1

/-- Civil month in [1, 12] from day-of-year. -/
def monthOfDoy (doy : Nat) : Nat := if mpOf doy < 10 then mpOf doy + 3 else mpOf doy - 9

/-- Era (400-year Gregorian cycle index) of a day count relative to 1970-01-01. -/
def eraOf (z : Int) : Int := (z + 719468) / 146097

/-- Day-of-era in [0, 146096] of a day count relative to 1970-01-01. -/
def doeOf (z : Int) : Nat := ((z + 719468) % 146097).toNat

/-- Civil (proleptic Gregorian) year of epoch day `z`; January and February
belong to the year following the March-based internal year. -/
def civilYear (z : Int) : Int :=
  (if monthOfDoy (doyOf (doeOf z)) ≤ 2 then 1 else 0) + eraOf z * 400 + (yoeOf (doeOf z) : Int)

/-- Civil month in [1, 12] of epoch day `z`. -/
def civilMonth (z : Int) : Nat := monthOfDoy (doyOf (doeOf z))

/-- Civil day of month of epoch day `z`. -/
def civilMday (z : Int) : Nat := mdayOfDoy (doyOf (doeOf z))

/-- The fields of C `struct tm` that the program reads: `tm_year` is the year
minus 1900 and `tm_mon` is zero-based, exactly as in `<ctime>`. -/
structure Tm where
  tm_sec : Nat
  tm_min : Nat
  tm_hour : Nat
  tm_mday : Nat
  tm_mon : Nat
  tm_year : Int
  deriving Repr, DecidableEq

/-- Epoch day of an epoch-seconds value (floor division, as in glibc). -/
def daysOf (t : Int) : Int := t / 86400

/-- Seconds within the day, in [0, 86399] (non-negative remainder). -/
def sodOf (t : Int) : Nat := (t % 86400).toNat

/-- The mathematical UTC calendar breakdown of epoch seconds `t`
(proleptic Gregorian calendar, no leap seconds), as computed by a successful
POSIX `gmtime_r`. -/
def secsToTm (t : Int) : Tm :=
  { tm_sec := sodOf t % 60
    tm_min := sodOf t % 3600 / 60
    tm_hour := sodOf t / 3600
    tm_mday := civilMday (daysOf t)
    tm_mon := civilMonth (daysOf t) - 1
    tm_year := civilYear (daysOf t) - 1900 }

/-- glibc's overflow check: the breakdown succeeds iff the year minus 1900
fits in a 32-bit int. -/
def tmYearFits (t : Int) : Bool :=
  -2147483648 ≤ civilYear (daysOf t) - 1900 && civilYear (daysOf t) - 1900 ≤ 2147483647

/-- Two's-complement truncation of an integer into a 32-bit int, as happens
when glibc stores the computed year into the int field `tm_year`. -/
def wrap32 (y : Int) : Int := (y + 2147483648) % 4294967296 - 2147483648

/-- Model of the source's `to_utc_tm` wrapper: calls `gmtime_r` on a
zero-initialized `std::tm` and ignores its return value.  On success the full
breakdown is returned; on overflow glibc has already stored hour, minute,
second and the int-truncated year, while month and day-of-month keep the
wrapper's zero initialization, and the NULL return is discarded. -/
def to_utc_tm (t : Int) : Tm :=
  if tmYearFits t then secsToTm t
  else { secsToTm t with tm_year := wrap32 (secsToTm t).tm_year, tm_mon := 0, tm_mday := 0 }

/-- The ambient local-timezone setting: maps epoch seconds to the UTC offset
in seconds in effect at that instant. -/
def TZ := Int → Int

/-- Model of the source's `to_local_tm` wrapper (`localtime_r`): the local
breakdown of `t` is the UTC breakdown of `t` shifted by the zone's offset. -/
def to_local_tm (tz : TZ) (t : Int) : Tm := to_utc_tm (t + tz t)

/-- The constant-zero offset function: an environment whose local timezone is
UTC. -/
def utcTZ : TZ := fun _ => 0

/-- Left-pad a string with `'0'` to a minimum width, as
`std::setw (w) << std::setfill ('0')` does for a right-justified stream. -/
def padZeros (w : Nat) (s : String) : String :=
  ⟨List.replicate (w - s.data.length) '0' ++ s.data⟩

/-- strftime's two-digit zero-padded decimal field (`%m`, `%d`, `%H`, `%M`, `%S`). -/
def fmtWidth2 (n : Nat) : String := padZeros 2 (Nat.repr n)

/-- strftime's `%Y`: the year `1900 + tm_year` printed as a plain decimal
number, with no zero-padding (glibc behaviour). -/
def fmtYear (tm : Tm) : String := Int.repr (1900 + tm.tm_year)

/-- Model of the source's `get_formatted_milliseconds`: the millisecond count
inserted into an `ostringstream` under `setw (3)` and `setfill ('0')`. -/
def get_formatted_milliseconds (ms : Int) : String := padZeros 3 (Int.repr ms)

/-- `put_time (&tm, "%F")`: `YYYY-MM-DD` with `%Y`, `%m`, `%d` as above. -/
def isoDateOf (tm : Tm) : String :=
  fmtYear tm ++ "-" ++ fmtWidth2 (tm.tm_mon + 1) ++ "-" ++ fmtWidth2 tm.tm_mday

/-- `put_time (&tm, "%FT%H:%M:%S")`. -/
def isoDateTimeOf (tm : Tm) : String :=
  isoDateOf tm ++ "T" ++ fmtWidth2 tm.tm_hour ++ ":" ++ fmtWidth2 tm.tm_min
    ++ ":" ++ fmtWidth2 tm.tm_sec

/-- Model of the source's private helper: returns the provided time point, or
the current system time (the `nowMs` clock reading) if none was given. -/
def get_input_time_point_or_current_system_time (nowMs : Int) (o : Option Int) : Int :=
  match o with
  | some t => t
  | none => nowMs

/-- `system_clock::to_time_t`: whole seconds of the instant, truncated toward
zero (libstdc++ uses `duration_cast<seconds>`). -/
def toTimeT (i : Int) : Int := Int.tdiv i 1000

/-- `duration_cast<milliseconds> (now.time_since_epoch ()) % 1000`: the C++
`%` operator truncates, so this is negative for pre-epoch instants. -/
def msRem (i : Int) : Int := Int.tmod i 1000

/-- `ISODateTime::get_current_iso_date` (explicit-optional form). -/
def get_current_iso_date (tz : TZ) (nowMs : Int) (o : Option Int) : String :=
  isoDateOf (to_local_tm tz (toTimeT (get_input_time_point_or_current_system_time nowMs o)))

/-- `ISODateTime::get_current_iso_date_time` (explicit-optional form). -/
def get_current_iso_date_time (tz : TZ) (nowMs : Int) (o : Option Int) : String :=
  isoDateTimeOf (to_local_tm tz (toTimeT (get_input_time_point_or_current_system_time nowMs o)))

/-- `ISODateTime::get_current_iso_date_timestamp` (explicit-optional form). -/
def get_current_iso_date_timestamp (tz : TZ) (nowMs : Int) (o : Option Int) : String :=
  let now := get_input_time_point_or_current_system_time nowMs o
  isoDateTimeOf (to_local_tm tz (toTimeT now)) ++ "." ++ get_formatted_milliseconds (msRem now)

/-- `ISODateTime::get_current_utc_iso_date` (explicit-optional form).  The UTC
conversion never reads the ambient timezone; the `_tz` parameter records the
environment only. -/
def get_current_utc_iso_date (_tz : TZ) (nowMs : Int) (o : Option Int) : String :=
  isoDateOf (to_utc_tm (toTimeT (get_input_time_point_or_current_system_time nowMs o)))

/-- `ISODateTime::get_current_utc_iso_date_time` (explicit-optional form). -/
def get_current_utc_iso_date_time (_tz : TZ) (nowMs : Int) (o : Option Int) : String :=
  isoDateTimeOf (to_utc_tm (toTimeT (get_input_time_point_or_current_system_time nowMs o))) ++ "Z"

/-- `ISODateTime::get_current_utc_iso_date_timestamp` (explicit-optional form). -/
def get_current_utc_iso_date_timestamp (_tz : TZ) (nowMs : Int) (o : Option Int) : String :=
  let now := get_input_time_point_or_current_system_time nowMs o
  isoDateTimeOf (to_utc_tm (toTimeT now)) ++ "." ++ get_formatted_milliseconds (msRem now) ++ "Z"

/-- Zero-argument `ISODateTime::get_current_iso_date`, which calls the
explicit form with `std::nullopt`. -/
def get_current_iso_date_noarg (tz : TZ) (nowMs : Int) : String :=
  get_current_iso_date tz nowMs none

/-- Zero-argument `ISODateTime::get_current_iso_date_time`. -/
def get_current_iso_date_time_noarg (tz : TZ) (nowMs : Int) : String :=
  get_current_iso_date_time tz nowMs none

/-- Zero-argument `ISODateTime::get_current_iso_date_timestamp`. -/
def get_current_iso_date_timestamp_noarg (tz : TZ) (nowMs : Int) : String :=
  get_current_iso_date_timestamp tz nowMs none

/-- Zero-argument `ISODateTime::get_current_utc_iso_date`. -/
def get_current_utc_iso_date_noarg (tz : TZ) (nowMs : Int) : String :=
  get_current_utc_iso_date tz nowMs none

/-- Zero-argument `ISODateTime::get_current_utc_iso_date_time`. -/
def get_current_utc_iso_date_time_noarg (tz : TZ) (nowMs : Int) : String :=
  get_current_utc_iso_date_time tz nowMs none

/-- Zero-argument `ISODateTime::get_current_utc_iso_date_timestamp`. -/
def get_current_utc_iso_date_timestamp_noarg (tz : TZ) (nowMs : Int) : String :=
  get_current_utc_iso_date_timestamp tz nowMs none

/-! ### Decimal rendering, digit by digit -/

/-- Every hexadecimal digit character produced for a value below 10 is a
decimal digit. -/
theorem isDigit_digitChar : ∀ x : Nat, x < 10 → (Nat.digitChar x).isDigit = true := by decide

/-- `Nat.digitChar` is strictly monotone on decimal digit values. -/
theorem digitChar_lt : ∀ x : Nat, x < 10 → ∀ y : Nat, y < 10 → x < y →
    Nat.digitChar x < Nat.digitChar y := by decide

/-- `Nat.digitChar` is injective on decimal digit values. -/
theorem digitChar_ne : ∀ x : Nat, x < 10 → ∀ y : Nat, y < 10 → x ≠ y →
    Nat.digitChar x ≠ Nat.digitChar y := by decide

theorem tdc_step (f n : Nat) (ds : List Char) (h : n / 10 ≠ 0) :
    Nat.toDigitsCore 10 (f + 1) n ds
      = Nat.toDigitsCore 10 f (n / 10) (Nat.digitChar (n % 10) :: ds) := by
  simp [Nat.toDigitsCore, h]

theorem tdc_last (f n : Nat) (ds : List Char) (h : n / 10 = 0) :
    Nat.toDigitsCore 10 (f + 1) n ds = Nat.digitChar (n % 10) :: ds := by
  simp [Nat.toDigitsCore, h]

/-- With enough fuel, `Nat.toDigitsCore` does not depend on the exact fuel. -/
theorem toDigitsCore_fuel (f : Nat) : ∀ (g n : Nat) (ds : List Char),
    n < 10 ^ f → n < 10 ^ g → 0 < f → 0 < g →
    Nat.toDigitsCore 10 f n ds = Nat.toDigitsCore 10 g n ds := by
  induction f with
  | zero => intro g n ds _ _ hf _; omega
  | succ f ih =>
    intro g n ds hnf hng _ hg
    cases g with
    | zero => omega
    | succ g =>
      by_cases h : n / 10 = 0
      · rw [tdc_last f n ds h, tdc_last g n ds h]
      · have hfpos : 0 < f := by
          rcases Nat.eq_zero_or_pos f with rfl | hf
          · rw [pow_one] at hnf; omega
          · exact hf
        have hgpos : 0 < g := by
          rcases Nat.eq_zero_or_pos g with rfl | hg'
          · rw [pow_one] at hng; omega
          · exact hg'
        have hf10 : n / 10 < 10 ^ f := by
          rw [Nat.div_lt_iff_lt_mul (by norm_num)]
          calc n < 10 ^ (f + 1) := hnf
          _ = 10 ^ f * 10 := by rw [pow_succ]
        have hg10 : n / 10 < 10 ^ g := by
          rw [Nat.div_lt_iff_lt_mul (by norm_num)]
          calc n < 10 ^ (g + 1) := hng
          _ = 10 ^ g * 10 := by rw [pow_succ]
        rw [tdc_step f n ds h, tdc_step g n ds h]
        exact ih g (n / 10) _ hf10 hg10 hfpos hgpos

theorem toDigits_eq_fuel (n f : Nat) (h : n < 10 ^ f) (hf : 0 < f) :
    Nat.toDigits 10 n = Nat.toDigitsCore 10 f n [] := by
  unfold Nat.toDigits
  refine toDigitsCore_fuel (n + 1) f n [] ?_ h (Nat.succ_pos n) hf
  calc n < 10 ^ n := Nat.lt_pow_self (by norm_num) n
  _ ≤ 10 ^ (n + 1) := Nat.pow_le_pow_right (by norm_num) (Nat.le_succ n)

theorem repr_data (n : Nat) : (Nat.repr n).data = Nat.toDigits 10 n := rfl

/-- Decimal rendering of a one-digit number. -/
theorem repr_data_1 (n : Nat) (h : n < 10) : (Nat.repr n).data = [Nat.digitChar n] := by
  rw [repr_data, toDigits_eq_fuel n 1 (by simpa using h) one_pos,
    tdc_last 0 n [] (by omega), Nat.mod_eq_of_lt h]

/-- Decimal rendering of a two-digit number. -/
theorem repr_data_2 (n : Nat) (h1 : 10 ≤ n) (h2 : n < 100) :
    (Nat.repr n).data = [Nat.digitChar (n / 10), Nat.digitChar (n % 10)] := by
  rw [repr_data, toDigits_eq_fuel n 2 (by norm_num; omega) (by norm_num),
    tdc_step 1 n [] (by omega), tdc_last 0 (n / 10) _ (by omega),
    Nat.mod_eq_of_lt (by omega : n / 10 < 10)]

/-- Decimal rendering of a three-digit number. -/
theorem repr_data_3 (n : Nat) (h1 : 100 ≤ n) (h2 : n < 1000) :
    (Nat.repr n).data
      = [Nat.digitChar (n / 100), Nat.digitChar (n / 10 % 10), Nat.digitChar (n % 10)] := by
  rw [repr_data, toDigits_eq_fuel n 3 (by norm_num; omega) (by norm_num),
    tdc_step 2 n [] (by omega), tdc_step 1 (n / 10) _ (by omega),
    tdc_last 0 (n / 10 / 10) _ (by omega), Nat.div_div_eq_div_mul,
    Nat.mod_eq_of_lt (by omega : n / 100 < 10)]

/-- Decimal rendering of a four-digit number. -/
theorem repr_data_4 (n : Nat) (h1 : 1000 ≤ n) (h2 : n < 10000) :
    (Nat.repr n).data
      = [Nat.digitChar (n / 1000), Nat.digitChar (n / 100 % 10),
         Nat.digitChar (n / 10 % 10), Nat.digitChar (n % 10)] := by
  rw [repr_data, toDigits_eq_fuel n 4 (by norm_num; omega) (by norm_num),
    tdc_step 3 n [] (by omega), tdc_step 2 (n / 10) _ (by omega),
    tdc_step 1 (n / 10 / 10) _ (by omega), tdc_last 0 (n / 10 / 10 / 10) _ (by omega),
    Nat.div_div_eq_div_mul, Nat.div_div_eq_div_mul,
    Nat.div_div_eq_div_mul,
    Nat.mod_eq_of_lt (by omega : n / 1000 < 10)]

/-- `Int.repr` of a non-negative integer is the `Nat` rendering. -/
theorem int_repr_nonneg (i : Int) (h : 0 ≤ i) : Int.repr i = Nat.repr i.toNat := by
  cases i with
  | ofNat n => rfl
  | negSucc n => exact absurd h (Int.not_le.mpr (Int.negSucc_lt_zero n))

theorem padZeros_data (w : Nat) (s : String) :
    (padZeros w s).data = List.replicate (w - s.data.length) '0' ++ s.data := rfl

/-- The two-digit zero-padded field, digit by digit. -/
theorem fmtWidth2_data (n : Nat) (h : n < 100) :
    (fmtWidth2 n).data = [Nat.digitChar (n / 10), Nat.digitChar (n % 10)] := by
  unfold fmtWidth2
  rw [padZeros_data]
  by_cases h10 : n < 10
  · rw [repr_data_1 n h10]
    have hd : n / 10 = 0 := by omega
    have hm : n % 10 = n := by omega
    rw [hd, hm]
    rfl
  · rw [repr_data_2 n (by omega) h]
    rfl

/-- The three-digit zero-padded millisecond field of a value in [0, 999],
digit by digit. -/
theorem ms3_data (ms : Int) (h0 : 0 ≤ ms) (h1 : ms < 1000) :
    (get_formatted_milliseconds ms).data
      = [Nat.digitChar (ms.toNat / 100), Nat.digitChar (ms.toNat / 10 % 10),
         Nat.digitChar (ms.toNat % 10)] := by
  unfold get_formatted_milliseconds
  rw [padZeros_data, int_repr_nonneg ms h0]
  have hlt : ms.toNat < 1000 := by omega
  by_cases ha : ms.toNat < 10
  · rw [repr_data_1 _ ha]
    have h2 : ms.toNat / 100 = 0 := by omega
    have h3 : ms.toNat / 10 % 10 = 0 := by omega
    have h4 : ms.toNat % 10 = ms.toNat := by omega
    rw [h2, h3, h4]
    rfl
  · by_cases hb : ms.toNat < 100
    · rw [repr_data_2 _ (by omega) hb]
      have h2 : ms.toNat / 100 = 0 := by omega
      have h3 : ms.toNat / 10 % 10 = ms.toNat / 10 := by omega
      rw [h2, h3]
      rfl
    · rw [repr_data_3 _ (by omega) hlt]
      rfl

/-! ### Bounds on the calendar breakdown -/

theorem doeOf_le (z : Int) : doeOf z ≤ 146096 := by
  unfold doeOf
  have h1 : 0 ≤ (z + 719468) % 146097 := Int.emod_nonneg _ (by norm_num)
  have h2 : (z + 719468) % 146097 < 146097 := Int.emod_lt_of_pos _ (by norm_num)
  omega

theorem yoeOf_le (doe : Nat) (h : doe ≤ 146096) : yoeOf doe ≤ 399 := by
  unfold yoeOf; omega

/-- Start-of-year day count (within an era) of year-of-era `y`. -/
def yearStartOf (y : Nat) : Nat := 365 * y + y / 4 - y / 100

set_option maxHeartbeats 3200000 in
/-- Sharp characterization of the year-of-era computation: `doe` lies between
the computed year's start day and the next year's start day (the era's last
day, a leap day, belongs to year-of-era 399). -/
theorem yoe_char (doe : Nat) (h : doe ≤ 146096) :
    yearStartOf (yoeOf doe) ≤ doe ∧ (yoeOf doe = 399 ∨ doe < yearStartOf (yoeOf doe + 1)) := by
  unfold yearStartOf yoeOf
  have hc : (doe - doe / 1460 + doe / 36524 - doe / 146096) / 365 / 100 ≤ 3 := by omega
  have hd1 : (doe - doe / 1460 + doe / 36524 - doe / 146096) / 365 / 100
      ≤ ((doe - doe / 1460 + doe / 36524 - doe / 146096) / 365 + 1) / 100 := by omega
  have hd2 : ((doe - doe / 1460 + doe / 36524 - doe / 146096) / 365 + 1) / 100
      ≤ (doe - doe / 1460 + doe / 36524 - doe / 146096) / 365 / 100 + 1 := by omega
  have he : doe / 36524 ≤ 4 := by omega
  have hf : doe / 146096 ≤ 1 := by omega
  set c := (doe - doe / 1460 + doe / 36524 - doe / 146096) / 365 / 100 with hcd
  set d := ((doe - doe / 1460 + doe / 36524 - doe / 146096) / 365 + 1) / 100 with hdd
  set e := doe / 36524 with hed
  set f := doe / 146096 with hfd
  interval_cases c <;> interval_cases d <;> interval_cases e <;> interval_cases f <;> omega

theorem yearStartOf_mono {y1 y2 : Nat} (h : y1 ≤ y2) : yearStartOf y1 ≤ yearStartOf y2 := by
  have h4 : y1 / 4 ≤ y2 / 4 := Nat.div_le_div_right h
  have e1 : y1 / 100 = y1 / 4 / 25 := (Nat.div_div_eq_div_mul y1 4 25).symm
  have e2 : y2 / 100 = y2 / 4 / 25 := (Nat.div_div_eq_div_mul y2 4 25).symm
  unfold yearStartOf
  rw [e1, e2]
  omega

theorem yearStartOf_succ_le (y : Nat) : yearStartOf (y + 1) ≤ yearStartOf y + 366 := by
  unfold yearStartOf; omega

theorem yoeOf_mono {a b : Nat} (hab : a ≤ b) (hb : b ≤ 146096) : yoeOf a ≤ yoeOf b := by
  have ha := yoe_char a (by omega)
  have hbb := yoe_char b hb
  by_contra hlt
  push_neg at hlt
  have h399 : yoeOf b < 399 := lt_of_lt_of_le hlt (yoeOf_le a (by omega))
  rcases hbb.2 with h | h
  · omega
  · have : yearStartOf (yoeOf b + 1) ≤ yearStartOf (yoeOf a) := yearStartOf_mono hlt
    omega

theorem doyOf_eq (doe : Nat) (h : doe ≤ 146096) :
    (doyOf doe : Int) = (doe : Int) - yearStartOf (yoeOf doe) ∧ doyOf doe ≤ 365 := by
  have h1 := yoe_char doe h
  have h2 := yearStartOf_succ_le (yoeOf doe)
  unfold doyOf
  unfold yearStartOf at h1 h2 ⊢
  constructor
  · omega
  · rcases h1.2 with h3 | h3
    · have := yoeOf_le doe h
      omega
    · omega

theorem month_mday_bounds : ∀ doy : Nat, doy ≤ 365 →
    mpOf doy ≤ 11 ∧ 1 ≤ monthOfDoy doy ∧ monthOfDoy doy ≤ 12 ∧
    1 ≤ mdayOfDoy doy ∧ mdayOfDoy doy ≤ 31 ∧ (153 * mpOf doy + 2) / 5 ≤ doy := by decide

theorem sodOf_lt (t : Int) : sodOf t < 86400 := by
  unfold sodOf
  have h1 : 0 ≤ t % 86400 := Int.emod_nonneg _ (by norm_num)
  have h2 : t % 86400 < 86400 := Int.emod_lt_of_pos _ (by norm_num)
  omega

/-- Field ranges of the tm returned by the (failure-tolerant) UTC conversion:
they hold on the success path by the calendar bounds and on the failure path
because month and day-of-month are still zero-initialized. -/
theorem to_utc_tm_hour (t : Int) : (to_utc_tm t).tm_hour = sodOf t / 3600 := by
  unfold to_utc_tm; split <;> rfl

theorem to_utc_tm_min (t : Int) : (to_utc_tm t).tm_min = sodOf t % 3600 / 60 := by
  unfold to_utc_tm; split <;> rfl

theorem to_utc_tm_sec (t : Int) : (to_utc_tm t).tm_sec = sodOf t % 60 := by
  unfold to_utc_tm; split <;> rfl

theorem to_utc_tm_mon (t : Int) :
    (to_utc_tm t).tm_mon = monthOfDoy (doyOf (doeOf (daysOf t))) - 1 ∨
      (to_utc_tm t).tm_mon = 0 := by
  unfold to_utc_tm; split
  · exact Or.inl rfl
  · exact Or.inr rfl

theorem to_utc_tm_mday (t : Int) :
    (to_utc_tm t).tm_mday = mdayOfDoy (doyOf (doeOf (daysOf t))) ∨
      (to_utc_tm t).tm_mday = 0 := by
  unfold to_utc_tm; split
  · exact Or.inl rfl
  · exact Or.inr rfl

theorem to_utc_tm_bounds (t : Int) :
    (to_utc_tm t).tm_mon + 1 ≤ 12 ∧ (to_utc_tm t).tm_mday ≤ 31 ∧
    (to_utc_tm t).tm_hour ≤ 23 ∧ (to_utc_tm t).tm_min ≤ 59 ∧ (to_utc_tm t).tm_sec ≤ 59 := by
  have hdoe := doeOf_le (daysOf t)
  have hdoy := (doyOf_eq _ hdoe).2
  have hmd := month_mday_bounds _ hdoy
  have hsod := sodOf_lt t
  rw [to_utc_tm_hour, to_utc_tm_min, to_utc_tm_sec]
  rcases to_utc_tm_mon t with hmo | hmo <;> rcases to_utc_tm_mday t with hmd2 | hmd2 <;>
    rw [hmo, hmd2] <;>
    exact ⟨by omega, by omega, by omega, by omega, by omega⟩

/-! ### Character-level facts about rendered strings -/

theorem tdc_chars (f : Nat) : ∀ (n : Nat) (ds : List Char), (∀ c ∈ ds, c.isDigit = true) →
    ∀ c ∈ Nat.toDigitsCore 10 f n ds, c.isDigit = true := by
  induction f with
  | zero => intro n ds h c hc; exact h c hc
  | succ f ih =>
    intro n ds h c hc
    by_cases h0 : n / 10 = 0
    · rw [tdc_last f n ds h0] at hc
      rcases List.mem_cons.mp hc with rfl | hc
      · exact isDigit_digitChar _ (Nat.mod_lt n (by norm_num))
      · exact h c hc
    · rw [tdc_step f n ds h0] at hc
      refine ih (n / 10) _ ?_ c hc
      intro c' hc'
      rcases List.mem_cons.mp hc' with rfl | hc'
      · exact isDigit_digitChar _ (Nat.mod_lt n (by norm_num))
      · exact h c' hc'

/-- Every character of a natural number's decimal rendering is a digit. -/
theorem nat_repr_digits (n : Nat) : ∀ c ∈ (Nat.repr n).data, c.isDigit = true := by
  rw [repr_data]
  unfold Nat.toDigits
  exact tdc_chars (n + 1) n [] (by intro c hc; cases hc)

/-- `Int.repr` of a negative integer. -/
theorem int_repr_negSucc (n : Nat) : Int.repr (Int.negSucc n) = "-" ++ Nat.repr (n + 1) := rfl

/-- Every character of an integer's decimal rendering is a digit or the minus
sign. -/
theorem int_repr_chars (i : Int) : ∀ c ∈ (Int.repr i).data, c.isDigit = true ∨ c = '-' := by
  cases i with
  | ofNat n =>
    intro c hc
    exact Or.inl (nat_repr_digits n c hc)
  | negSucc n =>
    intro c hc
    rw [int_repr_negSucc, String.data_append] at hc
    rcases List.mem_append.mp hc with hc | hc
    · rcases List.mem_singleton.mp hc with rfl
      exact Or.inr rfl
    · exact Or.inl (nat_repr_digits (n + 1) c hc)

theorem padZeros_chars (w : Nat) (s : String) (P : Char → Prop) (h0 : P '0')
    (h : ∀ c ∈ s.data, P c) : ∀ c ∈ (padZeros w s).data, P c := by
  intro c hc
  rw [padZeros_data] at hc
  rcases List.mem_append.mp hc with hc | hc
  · rcases List.eq_of_mem_replicate hc with rfl
    exact h0
  · exact h c hc

/-- No character of any local-format output is `'Z'`: all characters are
decimal digits, `'-'`, `'T'`, `':'` or `'.'`. -/
theorem noZ_fmtWidth2 (n : Nat) : 'Z' ∉ (fmtWidth2 n).data := by
  intro hc
  have := padZeros_chars 2 (Nat.repr n) (fun c => c.isDigit = true ∨ c = '-')
    (Or.inl (by decide)) (fun c hc => Or.inl (nat_repr_digits n c hc)) 'Z' hc
  rcases this with h | h
  · simp [Char.isDigit] at h
  · exact absurd h (by decide)

theorem noZ_fmtYear (tm : Tm) : 'Z' ∉ (fmtYear tm).data := by
  intro hc
  rcases int_repr_chars (1900 + tm.tm_year) 'Z' hc with h | h
  · simp [Char.isDigit] at h
  · exact absurd h (by decide)

theorem noZ_ms (ms : Int) : 'Z' ∉ (get_formatted_milliseconds ms).data := by
  intro hc
  have := padZeros_chars 3 (Int.repr ms) (fun c => c.isDigit = true ∨ c = '-')
    (Or.inl (by decide)) (fun c hc => int_repr_chars ms c hc) 'Z' hc
  rcases this with h | h
  · simp [Char.isDigit] at h
  · exact absurd h (by decide)

theorem noZ_isoDateOf (tm : Tm) : 'Z' ∉ (isoDateOf tm).data := by
  unfold isoDateOf
  simp only [String.data_append, List.mem_append]
  intro hc
  rcases hc with (hc | hc) | hc
  · rcases hc with hc | hc
    · rcases hc with hc | hc
      · exact noZ_fmtYear tm hc
      · exact absurd hc (by decide)
    · exact noZ_fmtWidth2 _ hc
  · exact absurd hc (by decide)
  · exact noZ_fmtWidth2 _ hc

theorem noZ_isoDateTimeOf (tm : Tm) : 'Z' ∉ (isoDateTimeOf tm).data := by
  unfold isoDateTimeOf
  simp only [String.data_append, List.mem_append]
  intro hc
  rcases hc with (((((hc | hc) | hc) | hc) | hc) | hc) | hc
  · exact noZ_isoDateOf tm hc
  · exact absurd hc (by decide)
  · exact noZ_fmtWidth2 _ hc
  · exact absurd hc (by decide)
  · exact noZ_fmtWidth2 _ hc
  · exact absurd hc (by decide)
  · exact noZ_fmtWidth2 _ hc

/-! ### The millisecond field of a timestamp string -/

/-- The last three characters of a string: the millisecond field of a local
timestamp. -/
def msField (s : String) : String := ⟨(s.data.reverse.take 3).reverse⟩

/-- The three characters preceding the final character: the millisecond field
of a UTC timestamp (before the trailing `'Z'`). -/
def msFieldZ (s : String) : String := ⟨((s.data.reverse.drop 1).take 3).reverse⟩

theorem msField_append (s p : String) (h : p.data.length = 3) : msField (s ++ p) = p := by
  unfold msField
  rw [String.data_append, List.reverse_append]
  have : (p.data.reverse ++ s.data.reverse).take 3 = p.data.reverse := by
    rw [show (3 : Nat) = p.data.reverse.length by rw [List.length_reverse, h]]
    exact List.take_left _ _
  rw [this, List.reverse_reverse]

theorem msFieldZ_append (s p : String) (h : p.data.length = 3) :
    msFieldZ (s ++ p ++ "Z") = p := by
  unfold msFieldZ
  rw [String.data_append, List.reverse_append]
  have h1 : (("Z" : String).data.reverse ++ (s ++ p).data.reverse).drop 1
      = (s ++ p).data.reverse := rfl
  rw [h1, String.data_append, List.reverse_append]
  have : (p.data.reverse ++ s.data.reverse).take 3 = p.data.reverse := by
    rw [show (3 : Nat) = p.data.reverse.length by rw [List.length_reverse, h]]
    exact List.take_left _ _
  rw [this, List.reverse_reverse]

/-- For an instant at or after the epoch, the truncating C++ remainder agrees
with the non-negative (Euclidean) remainder. -/
theorem tmod_eq_emod (i : Int) (h : 0 ≤ i) : Int.tmod i 1000 = i % 1000 := by
  cases i with
  | ofNat n => rfl
  | negSucc n => exact absurd h (Int.not_le.mpr (Int.negSucc_lt_zero n))

theorem emod1000_bounds (i : Int) : 0 ≤ i % 1000 ∧ i % 1000 < 1000 :=
  ⟨Int.emod_nonneg i (by norm_num), Int.emod_lt_of_pos i (by norm_num)⟩

/-- The rendered millisecond field of a value in [0, 999] has exactly three
characters, all digits. -/
theorem ms_shape (ms : Int) (h0 : 0 ≤ ms) (h1 : ms < 1000) :
    (get_formatted_milliseconds ms).data.length = 3 ∧
    ∀ c ∈ (get_formatted_milliseconds ms).data, c.isDigit = true := by
  rw [ms3_data ms h0 h1]
  refine ⟨rfl, ?_⟩
  intro c hc
  rcases List.mem_cons.mp hc with rfl | hc
  · exact isDigit_digitChar _ (by omega)
  · rcases List.mem_cons.mp hc with rfl | hc
    · exact isDigit_digitChar _ (by omega)
    · rcases List.mem_cons.mp hc with rfl | hc
      · exact isDigit_digitChar _ (by omega)
      · cases hc

theorem resolve_some (nowMs i : Int) :
    get_input_time_point_or_current_system_time nowMs (some i) = i := rfl

theorem local_ts_split (tz : TZ) (nowMs i : Int) :
    get_current_iso_date_timestamp tz nowMs (some i)
      = (get_current_iso_date_time tz nowMs (some i) ++ ".")
          ++ get_formatted_milliseconds (msRem i) := rfl

theorem utc_ts_split (tz : TZ) (nowMs i : Int) :
    get_current_utc_iso_date_timestamp tz nowMs (some i)
      = ((isoDateTimeOf (to_utc_tm (toTimeT i)) ++ ".")
          ++ get_formatted_milliseconds (msRem i)) ++ "Z" := rfl

theorem msRem_eq_emod (i : Int) (h : 0 ≤ i) : msRem i = i % 1000 := tmod_eq_emod i h

end ISODateTime

namespace ISODateTime

/-! ### Claim theorems -/

/-- C1 counterexample: the UTC date operation does not append a `'Z'`: at the
epoch instant it returns `"1970-01-01"`, whose last character is not `'Z'`. -/
theorem claim1_counterexample :
    get_current_utc_iso_date utcTZ 0 (some 0) = "1970-01-01" ∧
    (get_current_utc_iso_date utcTZ 0 (some 0)).data.getLast? ≠ some 'Z' := by
  constructor
  · decide
  · decide

/-- C1 (amended): the strings returned by the UTC date-time and UTC
date-timestamp operations end with a literal `'Z'`; the UTC date operation and
the three local operations never produce a `'Z'` anywhere, for every ambient
timezone, clock reading, and optional instant. -/
theorem claim1_z_suffix (tz : TZ) (nowMs : Int) (o : Option Int) :
    (get_current_utc_iso_date_time tz nowMs o).data.getLast? = some 'Z' ∧
    (get_current_utc_iso_date_timestamp tz nowMs o).data.getLast? = some 'Z' ∧
    'Z' ∉ (get_current_utc_iso_date tz nowMs o).data ∧
    'Z' ∉ (get_current_iso_date tz nowMs o).data ∧
    'Z' ∉ (get_current_iso_date_time tz nowMs o).data ∧
    'Z' ∉ (get_current_iso_date_timestamp tz nowMs o).data := by
  refine ⟨?_, ?_, ?_, ?_, ?_, ?_⟩
  · unfold get_current_utc_iso_date_time
    rw [String.data_append]
    exact List.getLast?_concat _
  · unfold get_current_utc_iso_date_timestamp
    rw [String.data_append]
    exact List.getLast?_concat _
  · unfold get_current_utc_iso_date
    exact noZ_isoDateOf _
  · unfold get_current_iso_date
    exact noZ_isoDateOf _
  · unfold get_current_iso_date_time
    exact noZ_isoDateTimeOf _
  · unfold get_current_iso_date_timestamp
    simp only [String.data_append, List.mem_append]
    intro hc
    rcases hc with (hc | hc) | hc
    · exact noZ_isoDateTimeOf _ hc
    · exact absurd hc (by decide)
    · exact noZ_ms _ hc

/-- C2 counterexample: at the pre-epoch instant -1 ms the embedded millisecond
field is `0-1` (the truncating C++ remainder -1 printed under `setw (3)`), not
the non-negative remainder 999. -/
theorem claim2_counterexample :
    get_current_iso_date_timestamp utcTZ 0 (some (-1)) = "1970-01-01T00:00:00.0-1" ∧
    msField (get_current_iso_date_timestamp utcTZ 0 (some (-1)))
      ≠ get_formatted_milliseconds ((-1 : Int) % 1000) := by
  constructor
  · decide
  · decide

/-- C2 (amended): for every instant at or after the epoch, the millisecond
field embedded in the timestamp strings is the rendering of the non-negative
remainder of the instant's epoch-milliseconds modulo 1000, which lies in
[0, 999]. -/
theorem claim2_ms_value (tz : TZ) (nowMs i : Int) (h : 0 ≤ i) :
    msField (get_current_iso_date_timestamp tz nowMs (some i))
      = get_formatted_milliseconds (i % 1000) ∧
    msFieldZ (get_current_utc_iso_date_timestamp tz nowMs (some i))
      = get_formatted_milliseconds (i % 1000) ∧
    get_formatted_milliseconds (i % 1000) = padZeros 3 (Nat.repr (i % 1000).toNat) ∧
    0 ≤ i % 1000 ∧ i % 1000 < 1000 := by
  have hb := emod1000_bounds i
  have hr : msRem i = i % 1000 := msRem_eq_emod i h
  have hlen : (get_formatted_milliseconds (i % 1000)).data.length = 3 :=
    (ms_shape _ hb.1 hb.2).1
  refine ⟨?_, ?_, ?_, hb.1, hb.2⟩
  · rw [local_ts_split, hr]
    exact msField_append _ _ hlen
  · rw [utc_ts_split, hr]
    exact msFieldZ_append _ _ hlen
  · unfold get_formatted_milliseconds
    rw [int_repr_nonneg _ hb.1]

/-- C2 witness: the amended claim at the instant 6 ms past the epoch. -/
theorem claim2_witness :
    0 ≤ (6 : Int) ∧
    (msField (get_current_iso_date_timestamp utcTZ 0 (some 6))
        = get_formatted_milliseconds ((6 : Int) % 1000) ∧
      msFieldZ (get_current_utc_iso_date_timestamp utcTZ 0 (some 6))
        = get_formatted_milliseconds ((6 : Int) % 1000) ∧
      get_formatted_milliseconds ((6 : Int) % 1000)
        = padZeros 3 (Nat.repr ((6 : Int) % 1000).toNat) ∧
      0 ≤ (6 : Int) % 1000 ∧ (6 : Int) % 1000 < 1000) :=
  ⟨by decide, claim2_ms_value utcTZ 0 6 (by decide)⟩

/-- C3: at an instant whose UTC year minus 1900 overflows a 32-bit int
(epoch-milliseconds 10^21, about year 3.17 x 10^10), the UTC date-time entry
point does not surface any error: it returns a normally-assembled string,
built from the partially-written tm left behind by the failed `gmtime_r`
call whose NULL return the code discards — an invalid calendar date with a
day-of-month field `00` and an int-truncated year. -/
theorem claim3_failure_output (tz : TZ) (nowMs : Int) :
    get_current_utc_iso_date_time tz nowMs (some 1000000000000000000000)
      = "1623969404-01-00T01:46:40Z" := by
  have h : get_current_utc_iso_date_time tz nowMs (some 1000000000000000000000)
      = get_current_utc_iso_date_time utcTZ 0 (some 1000000000000000000000) := rfl
  rw [h]
  decide

/-- C4: with the local timezone set to UTC, the explicit instant
2024-01-05T03:04:05.006 UTC (epoch-milliseconds 1704423845006) produces the
four example strings of the specification, for every clock reading. -/
theorem claim4_example (nowMs : Int) :
    get_current_iso_date_time utcTZ nowMs (some 1704423845006) = "2024-01-05T03:04:05" ∧
    get_current_iso_date_timestamp utcTZ nowMs (some 1704423845006)
      = "2024-01-05T03:04:05.006" ∧
    get_current_utc_iso_date_time utcTZ nowMs (some 1704423845006) = "2024-01-05T03:04:05Z" ∧
    get_current_utc_iso_date_timestamp utcTZ nowMs (some 1704423845006)
      = "2024-01-05T03:04:05.006Z" := by
  have h1 : get_current_iso_date_time utcTZ nowMs (some 1704423845006)
      = get_current_iso_date_time utcTZ 0 (some 1704423845006) := rfl
  have h2 : get_current_iso_date_timestamp utcTZ nowMs (some 1704423845006)
      = get_current_iso_date_timestamp utcTZ 0 (some 1704423845006) := rfl
  have h3 : get_current_utc_iso_date_time utcTZ nowMs (some 1704423845006)
      = get_current_utc_iso_date_time utcTZ 0 (some 1704423845006) := rfl
  have h4 : get_current_utc_iso_date_timestamp utcTZ nowMs (some 1704423845006)
      = get_current_utc_iso_date_timestamp utcTZ 0 (some 1704423845006) := rfl
  rw [h1, h2, h3, h4]
  refine ⟨by decide, by decide, by decide, by decide⟩

/-- C6 counterexample: at the pre-epoch instant -7 ms, the millisecond field
is `0-7`, which is not three decimal digits. -/
theorem claim6_counterexample :
    ¬ ∀ c ∈ (msField (get_current_iso_date_timestamp utcTZ 0 (some (-7)))).data,
        c.isDigit = true := by
  decide

/-- C6 (amended): for every instant at or after the epoch, the millisecond
field of both timestamp operations is rendered as exactly three decimal digits
with leading zeros (the zero-padded decimal of the remainder, e.g. 7 ms gives
`007`), and for any instant exactly on a second boundary the field renders as
`000`, never empty or omitted. -/
theorem claim6_ms_rendering (tz : TZ) (nowMs i j : Int) (hi : 0 ≤ i)
    (hj : Int.tmod j 1000 = 0) :
    (msField (get_current_iso_date_timestamp tz nowMs (some i))).data.length = 3 ∧
    (∀ c ∈ (msField (get_current_iso_date_timestamp tz nowMs (some i))).data,
        c.isDigit = true) ∧
    msField (get_current_iso_date_timestamp tz nowMs (some i))
      = padZeros 3 (Nat.repr ((i % 1000).toNat)) ∧
    (msFieldZ (get_current_utc_iso_date_timestamp tz nowMs (some i))).data.length = 3 ∧
    (∀ c ∈ (msFieldZ (get_current_utc_iso_date_timestamp tz nowMs (some i))).data,
        c.isDigit = true) ∧
    msField (get_current_iso_date_timestamp tz nowMs (some j)) = "000" ∧
    msFieldZ (get_current_utc_iso_date_timestamp tz nowMs (some j)) = "000" := by
  have hb := emod1000_bounds i
  have hr : msRem i = i % 1000 := msRem_eq_emod i hi
  have hsh := ms_shape (i % 1000) hb.1 hb.2
  have hfield : msField (get_current_iso_date_timestamp tz nowMs (some i))
      = get_formatted_milliseconds (i % 1000) := by
    rw [local_ts_split, hr]
    exact msField_append _ _ hsh.1
  have hfieldZ : msFieldZ (get_current_utc_iso_date_timestamp tz nowMs (some i))
      = get_formatted_milliseconds (i % 1000) := by
    rw [utc_ts_split, hr]
    exact msFieldZ_append _ _ hsh.1
  have hzero : get_formatted_milliseconds (msRem j) = "000" := by
    unfold msRem
    rw [hj]
    decide
  refine ⟨?_, ?_, ?_, ?_, ?_, ?_, ?_⟩
  · rw [hfield]; exact hsh.1
  · rw [hfield]; exact hsh.2
  · rw [hfield]
    unfold get_formatted_milliseconds
    rw [int_repr_nonneg _ hb.1]
  · rw [hfieldZ]; exact hsh.1
  · rw [hfieldZ]; exact hsh.2
  · rw [local_ts_split]
    rw [hzero]
    exact msField_append _ _ (by decide)
  · rw [utc_ts_split]
    rw [hzero]
    exact msFieldZ_append _ _ (by decide)

/-- C6 witness: the amended claim at 7 ms past the epoch (rendering `007`)
and the second-boundary instant -5000 ms (rendering `000`). -/
theorem claim6_witness :
    0 ≤ (7 : Int) ∧ Int.tmod (-5000) 1000 = 0 ∧
    ((msField (get_current_iso_date_timestamp utcTZ 0 (some 7))).data.length = 3 ∧
      (∀ c ∈ (msField (get_current_iso_date_timestamp utcTZ 0 (some 7))).data,
          c.isDigit = true) ∧
      msField (get_current_iso_date_timestamp utcTZ 0 (some 7))
        = padZeros 3 (Nat.repr (((7 : Int) % 1000).toNat)) ∧
      (msFieldZ (get_current_utc_iso_date_timestamp utcTZ 0 (some 7))).data.length = 3 ∧
      (∀ c ∈ (msFieldZ (get_current_utc_iso_date_timestamp utcTZ 0 (some 7))).data,
          c.isDigit = true) ∧
      msField (get_current_iso_date_timestamp utcTZ 0 (some (-5000))) = "000" ∧
      msFieldZ (get_current_utc_iso_date_timestamp utcTZ 0 (some (-5000))) = "000") :=
  ⟨by decide, by decide, claim6_ms_rendering utcTZ 0 7 (-5000) (by decide) (by decide)⟩

/-- C7 counterexample: at the pre-epoch instant -500 ms, the timestamp is
`"1970-01-01T00:00:00.-500"` (a four-character millisecond field); the
date-time string is not obtained by removing a dot and three digits. -/
theorem claim7_counterexample :
    get_current_iso_date_timestamp utcTZ 0 (some (-500)) = "1970-01-01T00:00:00.-500" ∧
    ¬ ∃ m : String, m.data.length = 3 ∧
        get_current_iso_date_timestamp utcTZ 0 (some (-500))
          = get_current_iso_date_time utcTZ 0 (some (-500)) ++ "." ++ m := by
  constructor
  · decide
  · rintro ⟨m, hlen, heq⟩
    have h1 : (get_current_iso_date_timestamp utcTZ 0 (some (-500))).data.length = 24 := by
      decide
    have h2 : (get_current_iso_date_time utcTZ 0 (some (-500))).data.length = 19 := by
      decide
    rw [heq] at h1
    simp only [String.data_append, List.length_append, List.length_cons,
      List.length_nil] at h1
    omega

/-- C7 (amended): for every instant at or after the epoch, the timestamp
string is exactly the date-time string followed by a dot and a three-digit
millisecond field, so the date-time string is the prefix obtained by removing
the trailing dot and three millisecond digits. -/
theorem claim7_prefix (tz : TZ) (nowMs i : Int) (h : 0 ≤ i) :
    get_current_iso_date_timestamp tz nowMs (some i)
      = get_current_iso_date_time tz nowMs (some i) ++ "."
          ++ get_formatted_milliseconds (msRem i) ∧
    (get_formatted_milliseconds (msRem i)).data.length = 3 ∧
    ∀ c ∈ (get_formatted_milliseconds (msRem i)).data, c.isDigit = true := by
  have hb := emod1000_bounds i
  have hr : msRem i = i % 1000 := msRem_eq_emod i h
  have hsh := ms_shape (i % 1000) hb.1 hb.2
  refine ⟨rfl, ?_, ?_⟩
  · rw [hr]; exact hsh.1
  · rw [hr]; exact hsh.2

/-- C7 witness: the amended claim at the instant 2024-01-05T03:04:05.006. -/
theorem claim7_witness :
    0 ≤ (1704423845006 : Int) ∧
    (get_current_iso_date_timestamp utcTZ 0 (some 1704423845006)
        = get_current_iso_date_time utcTZ 0 (some 1704423845006) ++ "."
            ++ get_formatted_milliseconds (msRem 1704423845006) ∧
      (get_formatted_milliseconds (msRem 1704423845006)).data.length = 3 ∧
      ∀ c ∈ (get_formatted_milliseconds (msRem 1704423845006)).data, c.isDigit = true) :=
  ⟨by decide, claim7_prefix utcTZ 0 1704423845006 (by decide)⟩

/-- C9: each zero-argument entry point returns exactly the string of its
explicit-optional counterpart applied to the empty optional at the same clock
reading, for every ambient timezone: the source delegates with `std::nullopt`. -/
theorem claim9_noarg_delegates (tz : TZ) (nowMs : Int) :
    get_current_iso_date_noarg tz nowMs = get_current_iso_date tz nowMs none ∧
    get_current_iso_date_time_noarg tz nowMs = get_current_iso_date_time tz nowMs none ∧
    get_current_iso_date_timestamp_noarg tz nowMs
      = get_current_iso_date_timestamp tz nowMs none ∧
    get_current_utc_iso_date_noarg tz nowMs = get_current_utc_iso_date tz nowMs none ∧
    get_current_utc_iso_date_time_noarg tz nowMs
      = get_current_utc_iso_date_time tz nowMs none ∧
    get_current_utc_iso_date_timestamp_noarg tz nowMs
      = get_current_utc_iso_date_timestamp tz nowMs none :=
  ⟨rfl, rfl, rfl, rfl, rfl, rfl⟩

/-- C10: the three UTC entry points depend only on the explicit instant: two
runs with the same explicit instant but different ambient timezone settings
(and even different clock readings) return identical strings, because the UTC
conversion never consults the ambient timezone. -/
theorem claim10_utc_tz_independent (tz1 tz2 : TZ) (now1 now2 i : Int) :
    get_current_utc_iso_date tz1 now1 (some i) = get_current_utc_iso_date tz2 now2 (some i) ∧
    get_current_utc_iso_date_time tz1 now1 (some i)
      = get_current_utc_iso_date_time tz2 now2 (some i) ∧
    get_current_utc_iso_date_timestamp tz1 now1 (some i)
      = get_current_utc_iso_date_timestamp tz2 now2 (some i) :=
  ⟨rfl, rfl, rfl⟩

/-! ### ISO 8601 field-width shapes -/

/-- A shape pattern: `'d'` matches any decimal digit, any other character
matches itself. -/
def matchesShape : List Char → List Char → Bool
  | [], [] => true
  | p :: ps, c :: cs => (if p = 'd' then c.isDigit else p == c) && matchesShape ps cs
  | _, _ => false

/-- `YYYY-MM-DD`. -/
def shapeDate : List Char := ['d', 'd', 'd', 'd', '-', 'd', 'd', '-', 'd', 'd']

/-- `YYYY-MM-DDTHH:MM:SS`. -/
def shapeDateTime : List Char := shapeDate ++ ['T', 'd', 'd', ':', 'd', 'd', ':', 'd', 'd']

/-- `YYYY-MM-DDTHH:MM:SS.mmm`. -/
def shapeTimestamp : List Char := shapeDateTime ++ ['.', 'd', 'd', 'd']

/-- `YYYY-MM-DDTHH:MM:SSZ`. -/
def shapeDateTimeZ : List Char := shapeDateTime ++ ['Z']

/-- `YYYY-MM-DDTHH:MM:SS.mmmZ`. -/
def shapeTimestampZ : List Char := shapeTimestamp ++ ['Z']

theorem matchesShape_nil (l : List Char) (h : matchesShape [] l = true) : l = [] := by
  cases l with
  | nil => rfl
  | cons c cs => simp [matchesShape] at h

theorem matchesShape_append {p1 l1 p2 l2 : List Char} (h1 : matchesShape p1 l1 = true)
    (h2 : matchesShape p2 l2 = true) : matchesShape (p1 ++ p2) (l1 ++ l2) = true := by
  induction p1 generalizing l1 with
  | nil => rw [matchesShape_nil l1 h1]; exact h2
  | cons p ps ih =>
    cases l1 with
    | nil => simp [matchesShape] at h1
    | cons c cs =>
      simp only [matchesShape, Bool.and_eq_true] at h1
      simp only [List.cons_append, matchesShape, Bool.and_eq_true]
      exact ⟨h1.1, ih h1.2⟩

theorem fmtWidth2_shape (n : Nat) (h : n < 100) :
    matchesShape ['d', 'd'] (fmtWidth2 n).data = true := by
  rw [fmtWidth2_data n h]
  simp only [matchesShape, if_pos rfl, Bool.and_eq_true]
  exact ⟨isDigit_digitChar _ (by omega), isDigit_digitChar _ (by omega), trivial⟩

theorem ms3_shape (ms : Int) (h0 : 0 ≤ ms) (h1 : ms < 1000) :
    matchesShape ['d', 'd', 'd'] (get_formatted_milliseconds ms).data = true := by
  rw [ms3_data ms h0 h1]
  simp only [matchesShape, if_pos rfl, Bool.and_eq_true]
  exact ⟨isDigit_digitChar _ (by omega), isDigit_digitChar _ (by omega),
    isDigit_digitChar _ (by omega), trivial⟩

theorem fmtYear_shape (tm : Tm) (h1 : 1000 ≤ 1900 + tm.tm_year)
    (h2 : 1900 + tm.tm_year ≤ 9999) :
    matchesShape ['d', 'd', 'd', 'd'] (fmtYear tm).data = true := by
  unfold fmtYear
  rw [int_repr_nonneg _ (by omega), repr_data_4 _ (by omega) (by omega)]
  simp only [matchesShape, if_pos rfl, Bool.and_eq_true]
  exact ⟨isDigit_digitChar _ (by omega), isDigit_digitChar _ (by omega),
    isDigit_digitChar _ (by omega), isDigit_digitChar _ (by omega), trivial⟩

theorem isoDateOf_shape (tm : Tm) (h1 : 1000 ≤ 1900 + tm.tm_year)
    (h2 : 1900 + tm.tm_year ≤ 9999) (hm : tm.tm_mon + 1 < 100) (hd : tm.tm_mday < 100) :
    matchesShape shapeDate (isoDateOf tm).data = true := by
  have e : shapeDate
      = (((['d', 'd', 'd', 'd'] ++ ['-']) ++ ['d', 'd']) ++ ['-']) ++ ['d', 'd'] := rfl
  rw [e]
  unfold isoDateOf
  simp only [String.data_append]
  exact matchesShape_append (matchesShape_append (matchesShape_append (matchesShape_append
    (fmtYear_shape tm h1 h2) rfl) (fmtWidth2_shape _ hm)) rfl) (fmtWidth2_shape _ hd)

theorem isoDateTimeOf_shape (tm : Tm) (h1 : 1000 ≤ 1900 + tm.tm_year)
    (h2 : 1900 + tm.tm_year ≤ 9999) (hm : tm.tm_mon + 1 < 100) (hd : tm.tm_mday < 100)
    (hh : tm.tm_hour < 100) (hmi : tm.tm_min < 100) (hs : tm.tm_sec < 100) :
    matchesShape shapeDateTime (isoDateTimeOf tm).data = true := by
  have e : shapeDateTime
      = ((((((shapeDate ++ ['T']) ++ ['d', 'd']) ++ [':']) ++ ['d', 'd']) ++ [':'])
          ++ ['d', 'd']) := rfl
  rw [e]
  unfold isoDateTimeOf
  simp only [String.data_append]
  exact matchesShape_append (matchesShape_append (matchesShape_append (matchesShape_append
    (matchesShape_append (matchesShape_append (isoDateOf_shape tm h1 h2 hm hd) rfl)
      (fmtWidth2_shape _ hh)) rfl) (fmtWidth2_shape _ hmi)) rfl) (fmtWidth2_shape _ hs)

/-- C5 counterexample: at the instant corresponding to 0050-01-01 UTC
(epoch-milliseconds -60589296000000), the UTC date string is `"50-01-01"`:
glibc's `%Y` does not zero-pad, so the year field has only two digits and the
output violates the `YYYY-MM-DD` field widths. -/
theorem claim5_counterexample :
    get_current_utc_iso_date utcTZ 0 (some (-60589296000000)) = "50-01-01" ∧
    matchesShape shapeDate (get_current_utc_iso_date utcTZ 0 (some (-60589296000000))).data
      = false := by
  constructor
  · decide
  · decide

theorem claim5_core (tz : TZ) (i : Int) :
    (1000 ≤ 1900 + (to_local_tm tz (toTimeT i)).tm_year →
      1900 + (to_local_tm tz (toTimeT i)).tm_year ≤ 9999 →
      matchesShape shapeDate (isoDateOf (to_local_tm tz (toTimeT i))).data = true ∧
      matchesShape shapeDateTime (isoDateTimeOf (to_local_tm tz (toTimeT i))).data = true) ∧
    (1000 ≤ 1900 + (to_utc_tm (toTimeT i)).tm_year →
      1900 + (to_utc_tm (toTimeT i)).tm_year ≤ 9999 →
      matchesShape shapeDate (isoDateOf (to_utc_tm (toTimeT i))).data = true ∧
      matchesShape shapeDateTimeZ
        ((isoDateTimeOf (to_utc_tm (toTimeT i)) ++ "Z")).data = true) ∧
    (1000 ≤ 1900 + (to_local_tm tz (toTimeT i)).tm_year →
      1900 + (to_local_tm tz (toTimeT i)).tm_year ≤ 9999 → 0 ≤ i →
      matchesShape shapeTimestamp
        ((isoDateTimeOf (to_local_tm tz (toTimeT i)) ++ "."
          ++ get_formatted_milliseconds (msRem i))).data = true) ∧
    (1000 ≤ 1900 + (to_utc_tm (toTimeT i)).tm_year →
      1900 + (to_utc_tm (toTimeT i)).tm_year ≤ 9999 → 0 ≤ i →
      matchesShape shapeTimestampZ
        ((isoDateTimeOf (to_utc_tm (toTimeT i)) ++ "."
          ++ get_formatted_milliseconds (msRem i) ++ "Z")).data = true) := by
  have hbl := to_utc_tm_bounds (toTimeT i + tz (toTimeT i))
  have hbu := to_utc_tm_bounds (toTimeT i)
  have hlocal : to_local_tm tz (toTimeT i) = to_utc_tm (toTimeT i + tz (toTimeT i)) := rfl
  rw [hlocal]
  have hms3 : 0 ≤ i →
      matchesShape ['d', 'd', 'd'] (get_formatted_milliseconds (msRem i)).data = true := by
    intro hi
    have hmsb := emod1000_bounds i
    rw [msRem_eq_emod i hi]
    exact ms3_shape _ hmsb.1 hmsb.2
  refine ⟨?_, ?_, ?_, ?_⟩
  · intro hyl1 hyl2
    exact ⟨isoDateOf_shape _ hyl1 hyl2 (by omega) (by omega),
      isoDateTimeOf_shape _ hyl1 hyl2 (by omega) (by omega) (by omega) (by omega) (by omega)⟩
  · intro hyu1 hyu2
    refine ⟨isoDateOf_shape _ hyu1 hyu2 (by omega) (by omega), ?_⟩
    have e : shapeDateTimeZ = shapeDateTime ++ ['Z'] := rfl
    rw [e, String.data_append]
    exact matchesShape_append
      (isoDateTimeOf_shape _ hyu1 hyu2 (by omega) (by omega) (by omega) (by omega) (by omega))
      rfl
  · intro hyl1 hyl2 hi
    have e : shapeTimestamp = (shapeDateTime ++ ['.']) ++ ['d', 'd', 'd'] := rfl
    rw [e, String.data_append, String.data_append]
    exact matchesShape_append (matchesShape_append
      (isoDateTimeOf_shape _ hyl1 hyl2 (by omega) (by omega) (by omega) (by omega) (by omega))
      rfl) (hms3 hi)
  · intro hyu1 hyu2 hi
    have e : shapeTimestampZ = ((shapeDateTime ++ ['.']) ++ ['d', 'd', 'd']) ++ ['Z'] := rfl
    rw [e, String.data_append, String.data_append, String.data_append]
    exact matchesShape_append (matchesShape_append (matchesShape_append
      (isoDateTimeOf_shape _ hyu1 hyu2 (by omega) (by omega) (by omega) (by omega) (by omega))
      rfl) (hms3 hi)) rfl

/-- C5 (amended): every emitted string satisfies the ISO 8601 field widths
(4-digit year, 2-digit month, day, hour, minute, second, 3-digit milliseconds)
provided the rendered year of the calendar breakdown used by the operation
lies in [1000, 9999]; the millisecond operations additionally require the
resolved instant to be at or after the epoch. -/
theorem claim5_shapes (tz : TZ) (nowMs : Int) (o : Option Int) :
    (1000 ≤ 1900 + (to_local_tm tz (toTimeT
        (get_input_time_point_or_current_system_time nowMs o))).tm_year →
      1900 + (to_local_tm tz (toTimeT
        (get_input_time_point_or_current_system_time nowMs o))).tm_year ≤ 9999 →
      matchesShape shapeDate (get_current_iso_date tz nowMs o).data = true ∧
      matchesShape shapeDateTime (get_current_iso_date_time tz nowMs o).data = true) ∧
    (1000 ≤ 1900 + (to_utc_tm (toTimeT
        (get_input_time_point_or_current_system_time nowMs o))).tm_year →
      1900 + (to_utc_tm (toTimeT
        (get_input_time_point_or_current_system_time nowMs o))).tm_year ≤ 9999 →
      matchesShape shapeDate (get_current_utc_iso_date tz nowMs o).data = true ∧
      matchesShape shapeDateTimeZ (get_current_utc_iso_date_time tz nowMs o).data = true) ∧
    (1000 ≤ 1900 + (to_local_tm tz (toTimeT
        (get_input_time_point_or_current_system_time nowMs o))).tm_year →
      1900 + (to_local_tm tz (toTimeT
        (get_input_time_point_or_current_system_time nowMs o))).tm_year ≤ 9999 →
      0 ≤ get_input_time_point_or_current_system_time nowMs o →
      matchesShape shapeTimestamp (get_current_iso_date_timestamp tz nowMs o).data = true) ∧
    (1000 ≤ 1900 + (to_utc_tm (toTimeT
        (get_input_time_point_or_current_system_time nowMs o))).tm_year →
      1900 + (to_utc_tm (toTimeT
        (get_input_time_point_or_current_system_time nowMs o))).tm_year ≤ 9999 →
      0 ≤ get_input_time_point_or_current_system_time nowMs o →
      matchesShape shapeTimestampZ (get_current_utc_iso_date_timestamp tz nowMs o).data
        = true) :=
  claim5_core tz (get_input_time_point_or_current_system_time nowMs o)

/-- C5 witness: the amended claim with every hypothesis discharged, at the
epoch instant in a UTC environment and, for the date and date-time shapes, at
the pre-epoch instant 1950-01-01 (epoch-milliseconds -631152000000). -/
theorem claim5_witness :
    (matchesShape shapeDate (get_current_iso_date utcTZ 0 (some 0)).data = true ∧
      matchesShape shapeDateTime (get_current_iso_date_time utcTZ 0 (some 0)).data = true) ∧
    (matchesShape shapeDate (get_current_utc_iso_date utcTZ 0 (some 0)).data = true ∧
      matchesShape shapeDateTimeZ
        (get_current_utc_iso_date_time utcTZ 0 (some 0)).data = true) ∧
    matchesShape shapeTimestamp
      (get_current_iso_date_timestamp utcTZ 0 (some 0)).data = true ∧
    matchesShape shapeTimestampZ
      (get_current_utc_iso_date_timestamp utcTZ 0 (some 0)).data = true ∧
    matchesShape shapeDate
      (get_current_utc_iso_date utcTZ 0 (some (-631152000000))).data = true ∧
    matchesShape shapeDateTimeZ
      (get_current_utc_iso_date_time utcTZ 0 (some (-631152000000))).data = true :=
  ⟨(claim5_shapes utcTZ 0 (some 0)).1 (by decide) (by decide),
    (claim5_shapes utcTZ 0 (some 0)).2.1 (by decide) (by decide),
    (claim5_shapes utcTZ 0 (some 0)).2.2.1 (by decide) (by decide) (by decide),
    (claim5_shapes utcTZ 0 (some 0)).2.2.2 (by decide) (by decide) (by decide),
    (claim5_shapes utcTZ 0 (some (-631152000000))).2.1 (by decide) (by decide)⟩

/-! ### Chronological monotonicity of the calendar breakdown -/

theorem doeOf_era (z : Int) : (doeOf z : Int) = z + 719468 - 146097 * eraOf z := by
  unfold doeOf eraOf
  rw [Int.toNat_of_nonneg (Int.emod_nonneg _ (by norm_num)), Int.emod_def]

theorem eraOf_mono {z1 z2 : Int} (h : z1 ≤ z2) : eraOf z1 ≤ eraOf z2 := by
  unfold eraOf
  exact Int.ediv_le_ediv (by norm_num) (by omega)

theorem mpOf_mono {d1 d2 : Nat} (h : d1 ≤ d2) : mpOf d1 ≤ mpOf d2 := by
  unfold mpOf
  exact Nat.div_le_div_right (by omega)

/-- Transporting a strict comparison of the March-based internal year through
the January/February adjustment: the civil years compare strictly, or they are
equal and the civil months compare strictly. -/
theorem year_level_lex (Y1 Y2 : Int) (m1 m2 : Nat)
    (hm1a : 1 ≤ m1) (hm1b : m1 ≤ 12) (hm2a : 1 ≤ m2) (hm2b : m2 ≤ 12)
    (hint : Y1 < Y2) :
    ((if m1 ≤ 2 then (1 : Int) else 0) + Y1 < (if m2 ≤ 2 then (1 : Int) else 0) + Y2) ∨
    (((if m1 ≤ 2 then (1 : Int) else 0) + Y1 = (if m2 ≤ 2 then (1 : Int) else 0) + Y2) ∧
      m1 < m2) := by
  by_cases h1 : m1 ≤ 2 <;> by_cases h2 : m2 ≤ 2 <;>
    simp only [h1, h2, if_true, if_false, if_pos, if_neg]
  · left; omega
  · rcases lt_or_eq_of_le (by omega : 1 + Y1 ≤ Y2) with h | h
    · left; omega
    · right; exact ⟨by omega, by omega⟩
  · left; omega
  · left; omega

/-- A strictly later epoch day has a strictly later civil date in
lexicographic (year, month, day) order. -/
theorem civil_strict_lex (z1 z2 : Int) (hz : z1 < z2) :
    civilYear z1 < civilYear z2 ∨
    (civilYear z1 = civilYear z2 ∧
      (civilMonth z1 < civilMonth z2 ∨
        (civilMonth z1 = civilMonth z2 ∧ civilMday z1 < civilMday z2))) := by
  have hera : eraOf z1 ≤ eraOf z2 := eraOf_mono hz.le
  have hd1 : doeOf z1 ≤ 146096 := doeOf_le z1
  have hd2 : doeOf z2 ≤ 146096 := doeOf_le z2
  have he1 : (doeOf z1 : Int) = z1 + 719468 - 146097 * eraOf z1 := doeOf_era z1
  have he2 : (doeOf z2 : Int) = z2 + 719468 - 146097 * eraOf z2 := doeOf_era z2
  have hy1 : yoeOf (doeOf z1) ≤ 399 := yoeOf_le _ hd1
  have hy2 : yoeOf (doeOf z2) ≤ 399 := yoeOf_le _ hd2
  have hdoy1 := doyOf_eq (doeOf z1) hd1
  have hdoy2 := doyOf_eq (doeOf z2) hd2
  have hmb1 := month_mday_bounds (doyOf (doeOf z1)) hdoy1.2
  have hmb2 := month_mday_bounds (doyOf (doeOf z2)) hdoy2.2
  have hcy1 : civilYear z1 = (if civilMonth z1 ≤ 2 then (1 : Int) else 0)
      + (eraOf z1 * 400 + (yoeOf (doeOf z1) : Int)) := by
    unfold civilYear civilMonth
    ring_nf
  have hcy2 : civilYear z2 = (if civilMonth z2 ≤ 2 then (1 : Int) else 0)
      + (eraOf z2 * 400 + (yoeOf (doeOf z2) : Int)) := by
    unfold civilYear civilMonth
    ring_nf
  by_cases heq : eraOf z1 = eraOf z2
  · -- same era, hence strictly larger day-of-era
    have hdoe12 : doeOf z1 < doeOf z2 := by omega
    have hyoe12 : yoeOf (doeOf z1) ≤ yoeOf (doeOf z2) := yoeOf_mono hdoe12.le hd2
    by_cases hyeq : yoeOf (doeOf z1) = yoeOf (doeOf z2)
    · -- same internal year: strictly larger day-of-year
      have hdoy12 : doyOf (doeOf z1) < doyOf (doeOf z2) := by
        rw [hyeq] at hdoy1
        omega
      have hmp12 : mpOf (doyOf (doeOf z1)) ≤ mpOf (doyOf (doeOf z2)) :=
        mpOf_mono hdoy12.le
      by_cases hmpeq : mpOf (doyOf (doeOf z1)) = mpOf (doyOf (doeOf z2))
      · -- same month: strictly larger day of month
        have hmoneq : civilMonth z1 = civilMonth z2 := by
          unfold civilMonth monthOfDoy
          rw [hmpeq]
        right
        refine ⟨?_, Or.inr ⟨hmoneq, ?_⟩⟩
        · rw [hcy1, hcy2, hmoneq, heq, hyeq]
        · have hK := (month_mday_bounds _ hdoy1.2).2.2.2.2.2
          rw [hmpeq] at hK
          unfold civilMday mdayOfDoy
          rw [hmpeq]
          omega
      · have hmplt : mpOf (doyOf (doeOf z1)) < mpOf (doyOf (doeOf z2)) :=
          lt_of_le_of_ne hmp12 hmpeq
        by_cases h10a : mpOf (doyOf (doeOf z1)) < 10 <;>
          by_cases h10b : mpOf (doyOf (doeOf z2)) < 10
        · -- both March..December of the same civil year
          have hm1 : civilMonth z1 = mpOf (doyOf (doeOf z1)) + 3 := by
            unfold civilMonth monthOfDoy
            rw [if_pos h10a]
          have hm2 : civilMonth z2 = mpOf (doyOf (doeOf z2)) + 3 := by
            unfold civilMonth monthOfDoy
            rw [if_pos h10b]
          right
          refine ⟨?_, Or.inl (by omega)⟩
          rw [hcy1, hcy2, heq, hyeq]
          have ha1 : ¬ civilMonth z1 ≤ 2 := by omega
          have ha2 : ¬ civilMonth z2 ≤ 2 := by omega
          rw [if_neg ha1, if_neg ha2]
        · -- first in March..December, second in January/February of the next
          -- civil year
          have hm1 : civilMonth z1 = mpOf (doyOf (doeOf z1)) + 3 := by
            unfold civilMonth monthOfDoy
            rw [if_pos h10a]
          have hm2 : civilMonth z2 = mpOf (doyOf (doeOf z2)) - 9 := by
            unfold civilMonth monthOfDoy
            rw [if_neg h10b]
          left
          rw [hcy1, hcy2, heq, hyeq]
          have ha1 : ¬ civilMonth z1 ≤ 2 := by omega
          have ha2 : civilMonth z2 ≤ 2 := by omega
          rw [if_neg ha1, if_pos ha2]
          omega
        · omega
        · -- both January/February of the next civil year
          have hm1 : civilMonth z1 = mpOf (doyOf (doeOf z1)) - 9 := by
            unfold civilMonth monthOfDoy
            rw [if_neg h10a]
          have hm2 : civilMonth z2 = mpOf (doyOf (doeOf z2)) - 9 := by
            unfold civilMonth monthOfDoy
            rw [if_neg h10b]
          right
          refine ⟨?_, Or.inl (by omega)⟩
          rw [hcy1, hcy2, heq, hyeq]
          have ha1 : civilMonth z1 ≤ 2 := by omega
          have ha2 : civilMonth z2 ≤ 2 := by omega
          rw [if_pos ha1, if_pos ha2]
    · -- same era, strictly larger year-of-era
      have hint : eraOf z1 * 400 + (yoeOf (doeOf z1) : Int)
          < eraOf z2 * 400 + (yoeOf (doeOf z2) : Int) := by omega
      have := year_level_lex _ _ (civilMonth z1) (civilMonth z2)
        hmb1.2.1 hmb1.2.2.1 hmb2.2.1 hmb2.2.2.1 hint
      rw [← hcy1, ← hcy2] at this
      rcases this with h | h
      · exact Or.inl h
      · exact Or.inr ⟨h.1, Or.inl h.2⟩
  · -- strictly larger era
    have herlt : eraOf z1 < eraOf z2 := lt_of_le_of_ne hera heq
    have hint : eraOf z1 * 400 + (yoeOf (doeOf z1) : Int)
        < eraOf z2 * 400 + (yoeOf (doeOf z2) : Int) := by
      have : eraOf z1 + 1 ≤ eraOf z2 := herlt
      nlinarith [hy1, hy2, Int.natCast_nonneg (yoeOf (doeOf z2))]
    have := year_level_lex _ _ (civilMonth z1) (civilMonth z2)
      hmb1.2.1 hmb1.2.2.1 hmb2.2.1 hmb2.2.2.1 hint
    rw [← hcy1, ← hcy2] at this
    rcases this with h | h
    · exact Or.inl h
    · exact Or.inr ⟨h.1, Or.inl h.2⟩

/-- Civil years never decrease along epoch days. -/
theorem civilYear_mono {z1 z2 : Int} (h : z1 ≤ z2) : civilYear z1 ≤ civilYear z2 := by
  rcases eq_or_lt_of_le h with rfl | hlt
  · exact le_refl _
  · rcases civil_strict_lex z1 z2 hlt with h | h
    · exact h.le
    · exact h.1.le

/-- Strict lexicographic comparison of the date fields of two tm values. -/
def StrictDateLex (x y : Tm) : Prop :=
  x.tm_year < y.tm_year ∨ (x.tm_year = y.tm_year ∧
    (x.tm_mon < y.tm_mon ∨ (x.tm_mon = y.tm_mon ∧ x.tm_mday < y.tm_mday)))

/-- Strict lexicographic comparison of all six rendered fields of two tm
values. -/
def StrictTmLex (x y : Tm) : Prop :=
  StrictDateLex x y ∨
  (x.tm_year = y.tm_year ∧ x.tm_mon = y.tm_mon ∧ x.tm_mday = y.tm_mday ∧
    (x.tm_hour < y.tm_hour ∨ (x.tm_hour = y.tm_hour ∧
      (x.tm_min < y.tm_min ∨ (x.tm_min = y.tm_min ∧ x.tm_sec < y.tm_sec)))))

theorem sodOf_eq (t : Int) : (sodOf t : Int) = t - 86400 * daysOf t := by
  unfold sodOf daysOf
  rw [Int.toNat_of_nonneg (Int.emod_nonneg _ (by norm_num)), Int.emod_def]

theorem daysOf_mono {t1 t2 : Int} (h : t1 ≤ t2) : daysOf t1 ≤ daysOf t2 := by
  unfold daysOf
  exact Int.ediv_le_ediv (by norm_num) h

theorem to_utc_tm_of_fits {t : Int} (h : tmYearFits t = true) : to_utc_tm t = secsToTm t := by
  unfold to_utc_tm
  rw [h]
  rfl

/-- A strictly later epoch second has a strictly later successful UTC
breakdown in lexicographic field order. -/
theorem secs_strict_lex (t1 t2 : Int) (h : t1 < t2)
    (hf1 : tmYearFits t1 = true) (hf2 : tmYearFits t2 = true) :
    StrictTmLex (to_utc_tm t1) (to_utc_tm t2) := by
  rw [to_utc_tm_of_fits hf1, to_utc_tm_of_fits hf2]
  have hdays : daysOf t1 ≤ daysOf t2 := daysOf_mono h.le
  have hm1 := month_mday_bounds (doyOf (doeOf (daysOf t1))) (doyOf_eq _ (doeOf_le _)).2
  have hm2 := month_mday_bounds (doyOf (doeOf (daysOf t2))) (doyOf_eq _ (doeOf_le _)).2
  rcases lt_or_eq_of_le hdays with hdlt | hdeq
  · left
    have hciv := civil_strict_lex _ _ hdlt
    show civilYear (daysOf t1) - 1900 < civilYear (daysOf t2) - 1900 ∨
      (civilYear (daysOf t1) - 1900 = civilYear (daysOf t2) - 1900 ∧
        (civilMonth (daysOf t1) - 1 < civilMonth (daysOf t2) - 1 ∨
          (civilMonth (daysOf t1) - 1 = civilMonth (daysOf t2) - 1 ∧
            civilMday (daysOf t1) < civilMday (daysOf t2))))
    have hb1 : 1 ≤ civilMonth (daysOf t1) := hm1.2.1
    have hb2 : 1 ≤ civilMonth (daysOf t2) := hm2.2.1
    rcases hciv with hy | ⟨hy, hm⟩
    · left; omega
    · right
      refine ⟨by omega, ?_⟩
      rcases hm with hm | ⟨hm, hd⟩
      · left; omega
      · right; exact ⟨by omega, hd⟩
  · right
    have hsod : sodOf t1 < sodOf t2 := by
      have e1 := sodOf_eq t1
      have e2 := sodOf_eq t2
      omega
    refine ⟨?_, ?_, ?_, ?_⟩
    · show civilYear (daysOf t1) - 1900 = civilYear (daysOf t2) - 1900
      rw [hdeq]
    · show civilMonth (daysOf t1) - 1 = civilMonth (daysOf t2) - 1
      rw [hdeq]
    · show civilMday (daysOf t1) = civilMday (daysOf t2)
      rw [hdeq]
    · show sodOf t1 / 3600 < sodOf t2 / 3600 ∨
        (sodOf t1 / 3600 = sodOf t2 / 3600 ∧
          (sodOf t1 % 3600 / 60 < sodOf t2 % 3600 / 60 ∨
            (sodOf t1 % 3600 / 60 = sodOf t2 % 3600 / 60 ∧
              sodOf t1 % 60 < sodOf t2 % 60)))
      have hhle : sodOf t1 / 3600 ≤ sodOf t2 / 3600 := Nat.div_le_div_right hsod.le
      by_cases hh : sodOf t1 / 3600 = sodOf t2 / 3600
      · right
        refine ⟨hh, ?_⟩
        have hmle : sodOf t1 % 3600 / 60 ≤ sodOf t2 % 3600 / 60 := by
          refine Nat.div_le_div_right ?_
          omega
        by_cases hmi : sodOf t1 % 3600 / 60 = sodOf t2 % 3600 / 60
        · right
          exact ⟨hmi, by omega⟩
        · exact Or.inl (lt_of_le_of_ne hmle hmi)
      · exact Or.inl (lt_of_le_of_ne hhle hh)

/-! ### Lexicographic comparison of rendered strings -/

theorem listLt_cons_same (c : Char) {l1 l2 : List Char} (h : l1 < l2) : c :: l1 < c :: l2 :=
  List.Lex.cons h

theorem listLt_append_left (p : List Char) {l1 l2 : List Char} (h : l1 < l2) :
    p ++ l1 < p ++ l2 := by
  induction p with
  | nil => exact h
  | cons c cs ih => exact listLt_cons_same c ih

theorem fmt2_lt {a b : Nat} (hb : b < 100) (hab : a < b) (r1 r2 : List Char) :
    (fmtWidth2 a).data ++ r1 < (fmtWidth2 b).data ++ r2 := by
  rw [fmtWidth2_data a (by omega), fmtWidth2_data b hb]
  simp only [List.cons_append, List.nil_append]
  rcases Nat.lt_or_ge (a / 10) (b / 10) with h | h
  · exact List.Lex.rel (digitChar_lt _ (by omega) _ (by omega) h)
  · have hdeq : a / 10 = b / 10 := by omega
    rw [hdeq]
    exact listLt_cons_same _
      (List.Lex.rel (digitChar_lt _ (by omega) _ (by omega) (by omega)))

theorem ms3_lt {a b : Int} (ha : 0 ≤ a) (hb : b < 1000) (hab : a < b) (r1 r2 : List Char) :
    (get_formatted_milliseconds a).data ++ r1
      < (get_formatted_milliseconds b).data ++ r2 := by
  rw [ms3_data a ha (by omega), ms3_data b (by omega) hb]
  simp only [List.cons_append, List.nil_append]
  have hna : a.toNat < b.toNat := by omega
  have hnb : b.toNat < 1000 := by omega
  rcases Nat.lt_or_ge (a.toNat / 100) (b.toNat / 100) with h | h
  · exact List.Lex.rel (digitChar_lt _ (by omega) _ (by omega) h)
  · have h1 : a.toNat / 100 = b.toNat / 100 := by omega
    rw [h1]
    rcases Nat.lt_or_ge (a.toNat / 10 % 10) (b.toNat / 10 % 10) with h2 | h2
    · exact listLt_cons_same _
        (List.Lex.rel (digitChar_lt _ (by omega) _ (by omega) h2))
    · have h3 : a.toNat / 10 % 10 = b.toNat / 10 % 10 := by omega
      rw [h3]
      exact listLt_cons_same _ (listLt_cons_same _
        (List.Lex.rel (digitChar_lt _ (by omega) _ (by omega) (by omega))))

theorem year4_lt {ya yb : Int} (h1 : 1000 ≤ ya) (h2 : yb ≤ 9999) (hab : ya < yb)
    (r1 r2 : List Char) : (Int.repr ya).data ++ r1 < (Int.repr yb).data ++ r2 := by
  rw [int_repr_nonneg ya (by omega), int_repr_nonneg yb (by omega),
    repr_data_4 _ (by omega) (by omega), repr_data_4 _ (by omega) (by omega)]
  simp only [List.cons_append, List.nil_append]
  have hna : ya.toNat < yb.toNat := by omega
  have hba : 1000 ≤ ya.toNat := by omega
  have hbb : yb.toNat < 10000 := by omega
  rcases Nat.lt_or_ge (ya.toNat / 1000) (yb.toNat / 1000) with h | h
  · exact List.Lex.rel (digitChar_lt _ (by omega) _ (by omega) h)
  · have e1 : ya.toNat / 1000 = yb.toNat / 1000 := by omega
    rw [e1]
    rcases Nat.lt_or_ge (ya.toNat / 100 % 10) (yb.toNat / 100 % 10) with h2 | h2
    · exact listLt_cons_same _
        (List.Lex.rel (digitChar_lt _ (by omega) _ (by omega) h2))
    · have e2 : ya.toNat / 100 % 10 = yb.toNat / 100 % 10 := by omega
      rw [e2]
      rcases Nat.lt_or_ge (ya.toNat / 10 % 10) (yb.toNat / 10 % 10) with h3 | h3
      · exact listLt_cons_same _ (listLt_cons_same _
          (List.Lex.rel (digitChar_lt _ (by omega) _ (by omega) h3)))
      · have e3 : ya.toNat / 10 % 10 = yb.toNat / 10 % 10 := by omega
        rw [e3]
        exact listLt_cons_same _ (listLt_cons_same _ (listLt_cons_same _
          (List.Lex.rel (digitChar_lt _ (by omega) _ (by omega) (by omega)))))

theorem isoDateOf_data (x : Tm) (r : List Char) :
    (isoDateOf x).data ++ r
      = (fmtYear x).data ++ ('-' :: ((fmtWidth2 (x.tm_mon + 1)).data
          ++ ('-' :: ((fmtWidth2 x.tm_mday).data ++ r)))) := by
  unfold isoDateOf
  simp only [String.data_append, List.append_assoc,
    show ("-" : String).data = ['-'] from rfl, List.singleton_append, List.cons_append,
    List.nil_append]

theorem isoDateTimeOf_data (x : Tm) (r : List Char) :
    (isoDateTimeOf x).data ++ r
      = (isoDateOf x).data ++ ('T' :: ((fmtWidth2 x.tm_hour).data
          ++ (':' :: ((fmtWidth2 x.tm_min).data
            ++ (':' :: ((fmtWidth2 x.tm_sec).data ++ r)))))) := by
  unfold isoDateTimeOf
  simp only [String.data_append, List.append_assoc,
    show ("T" : String).data = ['T'] from rfl,
    show (":" : String).data = [':'] from rfl, List.singleton_append, List.cons_append,
    List.nil_append]

theorem fmtYear_congr {x y : Tm} (h : x.tm_year = y.tm_year) : fmtYear x = fmtYear y := by
  unfold fmtYear
  rw [h]

theorem isoDateOf_congr {x y : Tm} (hy : x.tm_year = y.tm_year) (hm : x.tm_mon = y.tm_mon)
    (hd : x.tm_mday = y.tm_mday) : isoDateOf x = isoDateOf y := by
  unfold isoDateOf fmtYear
  rw [hy, hm, hd]

theorem isoDateTimeOf_congr {x y : Tm} (hy : x.tm_year = y.tm_year)
    (hm : x.tm_mon = y.tm_mon) (hd : x.tm_mday = y.tm_mday) (hh : x.tm_hour = y.tm_hour)
    (hmi : x.tm_min = y.tm_min) (hs : x.tm_sec = y.tm_sec) :
    isoDateTimeOf x = isoDateTimeOf y := by
  unfold isoDateTimeOf isoDateOf fmtYear
  rw [hy, hm, hd, hh, hmi, hs]

theorem dateData_lt (x y : Tm) (hx1 : 1000 ≤ 1900 + x.tm_year)
    (hy2 : 1900 + y.tm_year ≤ 9999) (hmy : y.tm_mon + 1 < 100) (hdy : y.tm_mday < 100)
    (hlex : StrictDateLex x y) (r1 r2 : List Char) :
    (isoDateOf x).data ++ r1 < (isoDateOf y).data ++ r2 := by
  rw [isoDateOf_data, isoDateOf_data]
  rcases hlex with hy | ⟨hyeq, hrest⟩
  · unfold fmtYear
    exact year4_lt hx1 hy2 (by omega) _ _
  · rw [fmtYear_congr hyeq]
    apply listLt_append_left
    apply listLt_cons_same
    rcases hrest with hm | ⟨hmeq, hd⟩
    · exact fmt2_lt (by omega) (by omega) _ _
    · rw [show x.tm_mon + 1 = y.tm_mon + 1 by omega]
      apply listLt_append_left
      apply listLt_cons_same
      exact fmt2_lt hdy hd _ _

theorem dtData_lt (x y : Tm) (hx1 : 1000 ≤ 1900 + x.tm_year)
    (hy2 : 1900 + y.tm_year ≤ 9999) (hmy : y.tm_mon + 1 < 100) (hdy : y.tm_mday < 100)
    (hhy : y.tm_hour < 100) (hmiy : y.tm_min < 100) (hsy : y.tm_sec < 100)
    (hlex : StrictTmLex x y) (r1 r2 : List Char) :
    (isoDateTimeOf x).data ++ r1 < (isoDateTimeOf y).data ++ r2 := by
  rw [isoDateTimeOf_data, isoDateTimeOf_data]
  rcases hlex with hdate | ⟨hy, hm, hd, ht⟩
  · exact dateData_lt x y hx1 hy2 hmy hdy hdate _ _
  · rw [isoDateOf_congr hy hm hd]
    apply listLt_append_left
    apply listLt_cons_same
    rcases ht with hh | ⟨hheq, ht2⟩
    · exact fmt2_lt hhy hh _ _
    · rw [hheq]
      apply listLt_append_left
      apply listLt_cons_same
      rcases ht2 with hmi | ⟨hmieq, hs⟩
      · exact fmt2_lt hmiy hmi _ _
      · rw [hmieq]
        apply listLt_append_left
        apply listLt_cons_same
        exact fmt2_lt hsy hs _ _

theorem strLT_of_data {s t : String} (h : s.data < t.data) : s < t :=
  String.lt_iff_toList_lt.mpr h

theorem str_ext {s t : String} (h : s.data = t.data) : s = t := by
  cases s
  cases t
  cases h
  rfl

theorem strLE_of_data {s t : String} (h : s.data < t.data ∨ s.data = t.data) : s ≤ t := by
  rcases h with h | h
  · exact le_of_lt (strLT_of_data h)
  · exact le_of_eq (str_ext h)

theorem fits_of_year_range {t : Int} (h1 : 1000 ≤ civilYear (daysOf t))
    (h2 : civilYear (daysOf t) ≤ 9999) : tmYearFits t = true := by
  unfold tmYearFits
  simp only [Bool.and_eq_true, decide_eq_true_eq]
  omega

theorem civilYear_epoch_le {t : Int} (h : 0 ≤ t) : 1970 ≤ civilYear (daysOf t) := by
  have hz : (0 : Int) ≤ daysOf t := by
    unfold daysOf
    exact Int.ediv_nonneg h (by norm_num)
  have h0 : civilYear 0 = 1970 := by decide
  calc (1970 : Int) = civilYear 0 := h0.symm
  _ ≤ civilYear (daysOf t) := civilYear_mono hz

/-- Monotonicity of all five output shapes at the epoch-seconds level: if the
second instant is no earlier than the first, the first instant's year is at
least 1000, the second's is at most 9999, and the millisecond fields are
ordered whenever the seconds coincide, then every formatted string is ordered
lexicographically. -/
theorem utc_strings_le (t1 t2 ms1 ms2 : Int)
    (ht : t1 ≤ t2) (hy1 : 1000 ≤ civilYear (daysOf t1))
    (hy2 : civilYear (daysOf t2) ≤ 9999)
    (hms1a : 0 ≤ ms1) (hms1b : ms1 < 1000) (hms2a : 0 ≤ ms2) (hms2b : ms2 < 1000)
    (hmseq : t1 = t2 → ms1 ≤ ms2) :
    isoDateOf (to_utc_tm t1) ≤ isoDateOf (to_utc_tm t2) ∧
    isoDateTimeOf (to_utc_tm t1) ≤ isoDateTimeOf (to_utc_tm t2) ∧
    isoDateTimeOf (to_utc_tm t1) ++ "Z" ≤ isoDateTimeOf (to_utc_tm t2) ++ "Z" ∧
    isoDateTimeOf (to_utc_tm t1) ++ "." ++ get_formatted_milliseconds ms1
      ≤ isoDateTimeOf (to_utc_tm t2) ++ "." ++ get_formatted_milliseconds ms2 ∧
    isoDateTimeOf (to_utc_tm t1) ++ "." ++ get_formatted_milliseconds ms1 ++ "Z"
      ≤ isoDateTimeOf (to_utc_tm t2) ++ "." ++ get_formatted_milliseconds ms2 ++ "Z" := by
  have hyy : civilYear (daysOf t1) ≤ civilYear (daysOf t2) :=
    civilYear_mono (daysOf_mono ht)
  have hf1 : tmYearFits t1 = true := fits_of_year_range (by omega) (by omega)
  have hf2 : tmYearFits t2 = true := fits_of_year_range (by omega) (by omega)
  have hx1 : 1000 ≤ 1900 + (to_utc_tm t1).tm_year := by
    rw [to_utc_tm_of_fits hf1]
    show 1000 ≤ 1900 + (civilYear (daysOf t1) - 1900)
    omega
  have hx2 : 1900 + (to_utc_tm t2).tm_year ≤ 9999 := by
    rw [to_utc_tm_of_fits hf2]
    show 1900 + (civilYear (daysOf t2) - 1900) ≤ 9999
    omega
  have hb2 := to_utc_tm_bounds t2
  rcases eq_or_lt_of_le ht with rfl | hlt
  · have hms := hmseq rfl
    have hts : isoDateTimeOf (to_utc_tm t1) ++ "." ++ get_formatted_milliseconds ms1
        ≤ isoDateTimeOf (to_utc_tm t1) ++ "." ++ get_formatted_milliseconds ms2 := by
      rcases lt_or_eq_of_le hms with hmlt | hmeq
      · refine strLE_of_data (Or.inl ?_)
        simp only [String.data_append, List.append_assoc,
          show ("." : String).data = ['.'] from rfl, List.singleton_append]
        apply listLt_append_left
        apply listLt_cons_same
        have h := ms3_lt (a := ms1) (b := ms2) hms1a hms2b hmlt [] []
        rwa [List.append_nil, List.append_nil] at h
      · rw [hmeq]
    have htsZ : isoDateTimeOf (to_utc_tm t1) ++ "." ++ get_formatted_milliseconds ms1 ++ "Z"
        ≤ isoDateTimeOf (to_utc_tm t1) ++ "." ++ get_formatted_milliseconds ms2 ++ "Z" := by
      rcases lt_or_eq_of_le hms with hmlt | hmeq
      · refine strLE_of_data (Or.inl ?_)
        simp only [String.data_append, List.append_assoc,
          show ("." : String).data = ['.'] from rfl,
          show ("Z" : String).data = ['Z'] from rfl, List.singleton_append]
        apply listLt_append_left
        apply listLt_cons_same
        exact ms3_lt (a := ms1) (b := ms2) hms1a hms2b hmlt ['Z'] ['Z']
      · rw [hmeq]
    exact ⟨le_refl _, le_refl _, le_refl _, hts, htsZ⟩
  · have hlex := secs_strict_lex t1 t2 hlt hf1 hf2
    have hdt : ∀ r1 r2 : List Char, (isoDateTimeOf (to_utc_tm t1)).data ++ r1
        < (isoDateTimeOf (to_utc_tm t2)).data ++ r2 := by
      intro r1 r2
      exact dtData_lt _ _ hx1 hx2 (by omega) (by omega) (by omega) (by omega) (by omega)
        hlex r1 r2
    refine ⟨?_, ?_, ?_, ?_, ?_⟩
    · rcases hlex with hdate | ⟨hy, hm, hd, _⟩
      · refine strLE_of_data (Or.inl ?_)
        have h := dateData_lt _ _ hx1 hx2 (by omega) (by omega) hdate [] []
        rwa [List.append_nil, List.append_nil] at h
      · exact le_of_eq (isoDateOf_congr hy hm hd)
    · refine strLE_of_data (Or.inl ?_)
      have h := hdt [] []
      rwa [List.append_nil, List.append_nil] at h
    · refine strLE_of_data (Or.inl ?_)
      simp only [String.data_append, show ("Z" : String).data = ['Z'] from rfl]
      exact hdt ['Z'] ['Z']
    · refine strLE_of_data (Or.inl ?_)
      simp only [String.data_append, List.append_assoc,
        show ("." : String).data = ['.'] from rfl, List.singleton_append]
      exact hdt ('.' :: (get_formatted_milliseconds ms1).data)
        ('.' :: (get_formatted_milliseconds ms2).data)
    · refine strLE_of_data (Or.inl ?_)
      simp only [String.data_append, List.append_assoc,
        show ("." : String).data = ['.'] from rfl,
        show ("Z" : String).data = ['Z'] from rfl, List.singleton_append]
      exact hdt ('.' :: ((get_formatted_milliseconds ms1).data ++ ['Z']))
        ('.' :: ((get_formatted_milliseconds ms2).data ++ ['Z']))

theorem toTimeT_eq_ediv {i : Int} (h : 0 ≤ i) : toTimeT i = i / 1000 := by
  unfold toTimeT
  cases i with
  | ofNat n => rfl
  | negSucc n => exact absurd h (Int.not_le.mpr (Int.negSucc_lt_zero n))

/-- C8 counterexample: under a timezone whose offset falls back from +3600 s
to 0 s at epoch-second 1000 (a DST-style transition), two successive clock
readings 999000 ms and 1000000 ms — the second no earlier than the first —
produce local date-time strings "1970-01-01T01:16:39" and then
"1970-01-01T00:16:40": the second formatted timestamp is strictly smaller in
string order. -/
theorem claim8_counterexample :
    (999000 : Int) ≤ 1000000 ∧
    ¬ (get_current_iso_date_time_noarg (fun s => if s < 1000 then 3600 else 0) 999000
        ≤ get_current_iso_date_time_noarg (fun s => if s < 1000 then 3600 else 0) 1000000) := by
  refine ⟨by decide, ?_⟩
  have hlt : get_current_iso_date_time_noarg (fun s => if s < 1000 then 3600 else 0) 1000000
      < get_current_iso_date_time_noarg (fun s => if s < 1000 then 3600 else 0) 999000 := by
    refine strLT_of_data ?_
    decide
  exact not_le.mpr hlt

/-- C8 (amended): successive calls to a zero-argument entry point with
non-decreasing clock readings, the first at or after the epoch, yield
non-decreasing formatted timestamps in string order: for the three UTC entry
points whenever the UTC calendar year at the second reading is at most 9999,
and for the three local entry points under a constant timezone offset `c`
whenever the local calendar year is at least 1000 at the first reading and at
most 9999 at the second. -/
theorem claim8_monotone (c now1 now2 : Int) (h0 : 0 ≤ now1) (h12 : now1 ≤ now2) :
    (civilYear (daysOf (toTimeT now2)) ≤ 9999 →
      get_current_utc_iso_date_noarg (fun _ => c) now1
        ≤ get_current_utc_iso_date_noarg (fun _ => c) now2 ∧
      get_current_utc_iso_date_time_noarg (fun _ => c) now1
        ≤ get_current_utc_iso_date_time_noarg (fun _ => c) now2 ∧
      get_current_utc_iso_date_timestamp_noarg (fun _ => c) now1
        ≤ get_current_utc_iso_date_timestamp_noarg (fun _ => c) now2) ∧
    (1000 ≤ civilYear (daysOf (toTimeT now1 + c)) →
      civilYear (daysOf (toTimeT now2 + c)) ≤ 9999 →
      get_current_iso_date_noarg (fun _ => c) now1
        ≤ get_current_iso_date_noarg (fun _ => c) now2 ∧
      get_current_iso_date_time_noarg (fun _ => c) now1
        ≤ get_current_iso_date_time_noarg (fun _ => c) now2 ∧
      get_current_iso_date_timestamp_noarg (fun _ => c) now1
        ≤ get_current_iso_date_timestamp_noarg (fun _ => c) now2) := by
  have h02 : 0 ≤ now2 := le_trans h0 h12
  have htt0 : 0 ≤ toTimeT now1 := by
    rw [toTimeT_eq_ediv h0]
    exact Int.ediv_nonneg h0 (by norm_num)
  have httmono : toTimeT now1 ≤ toTimeT now2 := by
    rw [toTimeT_eq_ediv h0, toTimeT_eq_ediv h02]
    exact Int.ediv_le_ediv (by norm_num) h12
  have hmb1 := emod1000_bounds now1
  have hmb2 := emod1000_bounds now2
  have hms1 : msRem now1 = now1 % 1000 := msRem_eq_emod now1 h0
  have hms2 : msRem now2 = now2 % 1000 := msRem_eq_emod now2 h02
  have hmseq_utc : toTimeT now1 = toTimeT now2 → msRem now1 ≤ msRem now2 := by
    intro he
    rw [toTimeT_eq_ediv h0, toTimeT_eq_ediv h02] at he
    rw [hms1, hms2]
    omega
  have hmseq_loc : toTimeT now1 + c = toTimeT now2 + c → msRem now1 ≤ msRem now2 :=
    fun he => hmseq_utc (by omega)
  constructor
  · intro hyu
    have h1970 : 1970 ≤ civilYear (daysOf (toTimeT now1)) := civilYear_epoch_le htt0
    have hu := utc_strings_le (toTimeT now1) (toTimeT now2) (msRem now1) (msRem now2)
      httmono (by omega) hyu (by omega) (by omega) (by omega) (by omega) hmseq_utc
    exact ⟨hu.1, hu.2.2.1, hu.2.2.2.2⟩
  · intro hyl1 hyl2
    have hl := utc_strings_le (toTimeT now1 + c) (toTimeT now2 + c)
      (msRem now1) (msRem now2) (by omega) hyl1 hyl2
      (by omega) (by omega) (by omega) (by omega) hmseq_loc
    exact ⟨hl.1, hl.2.1, hl.2.2.2.1⟩

/-- C8 witness: the amended claim with every hypothesis discharged, for clock
readings 0 ms and 1 ms under the constant offset -3600 s (a UTC-1 zone, whose
shifted seconds lie before the epoch). -/
theorem claim8_witness :
    (get_current_utc_iso_date_noarg (fun _ => (-3600 : Int)) 0
        ≤ get_current_utc_iso_date_noarg (fun _ => (-3600 : Int)) 1 ∧
      get_current_utc_iso_date_time_noarg (fun _ => (-3600 : Int)) 0
        ≤ get_current_utc_iso_date_time_noarg (fun _ => (-3600 : Int)) 1 ∧
      get_current_utc_iso_date_timestamp_noarg (fun _ => (-3600 : Int)) 0
        ≤ get_current_utc_iso_date_timestamp_noarg (fun _ => (-3600 : Int)) 1) ∧
    (get_current_iso_date_noarg (fun _ => (-3600 : Int)) 0
        ≤ get_current_iso_date_noarg (fun _ => (-3600 : Int)) 1 ∧
      get_current_iso_date_time_noarg (fun _ => (-3600 : Int)) 0
        ≤ get_current_iso_date_time_noarg (fun _ => (-3600 : Int)) 1 ∧
      get_current_iso_date_timestamp_noarg (fun _ => (-3600 : Int)) 0
        ≤ get_current_iso_date_timestamp_noarg (fun _ => (-3600 : Int)) 1) :=
  ⟨(claim8_monotone (-3600) 0 1 (by decide) (by decide)).1 (by decide),
    (claim8_monotone (-3600) 0 1 (by decide) (by decide)).2 (by decide) (by decide)⟩

end ISODateTime
